import Mathlib

/-!
Verification of the chart-geometry and event-scanning engine of the
`astromind-backend` repository (files `engine.py`, `scanner.py`,
`aspects_engine.py`) against its natural-language specification.

The Python code works on floats; every arithmetic value is modelled as a
rational number (`ℚ`).  Python built-ins are modelled by executable Lean
functions kept kernel-reducible so that concrete runs can be checked by
`decide`:

* `qfloor`   — mathematical floor (used for Python's `//` and float `%`),
* `pyInt`    — Python `int()` applied to a float (truncation toward zero),
* `qabs`, `qmin` — Python `abs` and two-argument `min`,
* `qmod`     — Python float `%` (result has the sign of the modulus),
* `pyRound`  — Python `round(x, n)` (banker's rounding, half to even),
* fuelled loops for the `while`-loop angle normalisation.

Bridge lemmas relate these to the Mathlib notions (`Int.floor`, `|·|`,
`min`) used in the mathematical proofs.

Strings are processed on their character lists (`String.data`) with
structurally recursive helpers, again so the kernel can evaluate them.

The file has two parts: first every definition (the embedding of the
Python code plus the concrete inputs used by witnesses), then every
theorem.
-/

attribute [local semireducible] Rat.add Rat.sub Rat.mul Rat.inv

namespace Astromind

/-! # Part 1 — Definitions -/

/-! ## Python arithmetic primitives -/

/-- Mathematical floor of a rational, computed with floored integer
division so that the kernel can evaluate it. -/
def qfloor (x : ℚ) : ℤ := Int.fdiv x.num x.den

/-- Python `int()` on a float: truncation toward zero. -/
def pyInt (x : ℚ) : ℤ := Int.tdiv x.num x.den

/-- Python `abs` on floats. -/
def qabs (x : ℚ) : ℚ := if x < 0 then -x else x

/-- Python two-argument `min` on floats (returns the first argument on
ties, exactly like Python). -/
def qmin (a b : ℚ) : ℚ := if a ≤ b then a else b

/-- Python float modulo `x % m` for a positive modulus `m`: the
remainder of floored division, always in `[0, m)`. -/
def qmod (x m : ℚ) : ℚ := x - m * qfloor (x / m)

/-- Round half to even to an integer: Python's `round(x)`. -/
def pyRoundInt (x : ℚ) : ℤ :=
  let f := qfloor x
  let r := x - f
  if r < 1/2 then f
  else if 1/2 < r then f + 1
  else if f % 2 = 0 then f else f + 1

/-- Python `round(x, digits)` (round half to even at the given number of
decimal digits). -/
def pyRound (x : ℚ) (digits : ℕ) : ℚ :=
  (pyRoundInt (x * (10 ^ digits : ℕ))) / ((10 ^ digits : ℕ) : ℚ)

/-! ## Angle normalisation (`scanner._normalize_angle`)

```python
while angle < 0:
    angle += 360
while angle >= 360:
    angle -= 360
```

The two `while` loops are modelled as fuelled loops; the fuel is
computed from the angle and is provably sufficient (see
`normalizeAngle_eq_qmod`), so the model computes exactly the loops'
fixpoints. -/

/-- The `while angle < 0: angle += 360` loop, with fuel. -/
def addLoop : ℕ → ℚ → ℚ
  | 0, x => x
  | n + 1, x => if x < 0 then addLoop n (x + 360) else x

/-- The `while angle >= 360: angle -= 360` loop, with fuel. -/
def subLoop : ℕ → ℚ → ℚ
  | 0, x => x
  | n + 1, x => if 360 ≤ x then subLoop n (x - 360) else x

/-- Fuel sufficient for `addLoop` starting from `x`. -/
def addFuel (x : ℚ) : ℕ := (-(qfloor (x / 360))).toNat + 1

/-- Fuel sufficient for `subLoop` starting from `x`. -/
def subFuel (x : ℚ) : ℕ := (qfloor (x / 360)).toNat + 1

/-- `scanner._normalize_angle` (also the normalisation prelude of
`engine._decimal_to_dms`): repeatedly add 360 while negative, then
repeatedly subtract 360 while `≥ 360`. -/
def normalizeAngle (x : ℚ) : ℚ :=
  let y := addLoop (addFuel x) x
  subLoop (subFuel y) y

/-! ## Generic list helpers (Python dict/list idioms) -/

/-- Python `d[k]` / `k in d` on an association list (dicts are modelled
as association lists in insertion order). -/
def alookup {α : Type} (l : List (String × α)) (k : String) : Option α :=
  (l.find? (fun e => e.1 == k)).map (·.2)

/-- Python `d[k] = v` on an association list: replace the existing
binding, or append a new one. -/
def aset {α : Type} (l : List (String × α)) (k : String) (v : α) :
    List (String × α) :=
  if l.any (fun e => e.1 == k) then
    l.map (fun e => if e.1 == k then (k, v) else e)
  else l ++ [(k, v)]

/-- All index pairs `i < j` of a list, in Python's
`for i in range(n): for j in range(i+1, n)` order. -/
def allPairs {α : Type} : List α → List (α × α)
  | [] => []
  | x :: xs => xs.map (fun y => (x, y)) ++ allPairs xs

/-- Insert `x` into `l` before the first element strictly greater
(under `lt`), i.e. after every earlier element with an equal key: the
insertion step of a stable ascending sort. -/
def insertSorted {α : Type} (lt : α → α → Bool) (x : α) : List α → List α
  | [] => [x]
  | y :: ys => if lt x y then x :: y :: ys else y :: insertSorted lt x ys

/-- Stable ascending sort (Python `list.sort`): consume the list from
the left, inserting each element after all previously inserted elements
with keys `≤` its own. -/
def sortBy {α : Type} (lt : α → α → Bool) (l : List α) : List α :=
  l.foldl (fun acc x => insertSorted lt x acc) []

/-- The element of `l` with the smallest key; the first one on ties
(Python `min(l, key=...)`). -/
def minByKey {α : Type} (key : α → ℚ) (l : List α) : Option α :=
  l.foldl
    (fun acc x =>
      match acc with
      | none => some x
      | some b => if key x < key b then some x else some b)
    none

/-! ## `aspects_engine.py` -/

/-- The five aspect kinds of `aspects_engine.py`. -/
inductive AspectKind : Type
  | conjunction
  | opposition
  | square
  | trine
  | sextile
deriving DecidableEq, Repr

/-- `_get_orb_for_aspect`: maximum orb for a planet pair and aspect
kind, in degrees. -/
def getOrbForAspect (planet1 planet2 : String) (aspectType : AspectKind)
    (useWiderOrbs : Bool) : ℚ :=
  let outerPlanets : List String := ["Uranus", "Neptune", "Pluto"]
  let majorOrb : ℚ := if useWiderOrbs then 10 else 8
  let minorOrb : ℚ := if useWiderOrbs then 6 else 5
  let outerMajor : ℚ := if useWiderOrbs then 6 else 5
  let outerMinor : ℚ := if useWiderOrbs then 5 else 4
  let isOuter := outerPlanets.contains planet1 || outerPlanets.contains planet2
  match aspectType with
  | .conjunction | .opposition | .square => if isOuter then outerMajor else majorOrb
  | .trine | .sextile => if isOuter then outerMinor else minorOrb

/-- `_calculate_angle`: smallest angle between two longitudes (0–180°). -/
def calculateAngle (longitude1 longitude2 : ℚ) : ℚ :=
  let diff := qmod (qabs (longitude1 - longitude2)) 360
  qmin diff (360 - diff)

/-- The aspect list iterated by the three calculators, in source order:
`[("conjunction", 0), ("opposition", 180), ("square", 90),
("trine", 120), ("sextile", 60)]`. -/
def aspectIdealList : List (AspectKind × ℚ) :=
  [(.conjunction, 0), (.opposition, 180), (.square, 90), (.trine, 120), (.sextile, 60)]

/-- One entry of the aspect lists returned by `aspects_engine.py`.  For
`calculate_transit_aspects_to_natal` the fields `planet1`/`planet2`
model the keys `transit_planet`/`natal_planet`. -/
structure AspectEntry : Type where
  planet1 : String
  planet2 : String
  aspect : AspectKind
  angle : ℚ
  orb : ℚ
deriving DecidableEq, Repr

/-- Inner aspect-kind loop shared by `_calculate_aspects_between_points`
and `calculate_transit_aspects_to_natal`: one entry per aspect kind
whose orb is within tolerance. -/
def aspectsForPair (p1 p2 : String) (lon1 lon2 : ℚ) (useWiderOrbs : Bool) :
    List AspectEntry :=
  let angle := calculateAngle lon1 lon2
  aspectIdealList.filterMap (fun ai =>
    let orb := qabs (angle - ai.2)
    if orb ≤ getOrbForAspect p1 p2 ai.1 useWiderOrbs then
      some ⟨p1, p2, ai.1, pyRound angle 2, pyRound orb 2⟩
    else none)

/-- Inner aspect-kind loop of `calculate_synastry_aspects`, which keeps
the (vacuously true) `if orb <= 180` guard of the source. -/
def aspectsForPairSyn (p1 p2 : String) (lon1 lon2 : ℚ) (useWiderOrbs : Bool) :
    List AspectEntry :=
  let angle := calculateAngle lon1 lon2
  aspectIdealList.filterMap (fun ai =>
    let orb := qabs (angle - ai.2)
    if orb ≤ 180 then
      if orb ≤ getOrbForAspect p1 p2 ai.1 useWiderOrbs then
        some ⟨p1, p2, ai.1, pyRound angle 2, pyRound orb 2⟩
      else none
    else none)

/-- Ordering used by `aspects.sort(key=lambda x: x["orb"])`. -/
def orbLt (a b : AspectEntry) : Bool := a.orb < b.orb

/-- `_calculate_aspects_between_points`. -/
def calculateAspectsBetweenPoints (points : List (String × ℚ))
    (useWiderOrbs : Bool) : List AspectEntry :=
  sortBy orbLt
    ((allPairs points).flatMap (fun pq =>
      aspectsForPair pq.1.1 pq.2.1 pq.1.2 pq.2.2 useWiderOrbs))

/-- The chart dictionary, restricted to the fields the claims touch.
`planets` maps body name to its longitude (`none` models the
`None`-longitude of a failed provider query); `houses` is the top-level
`"houses"` mapping `HouseN ↦ cusp`; `anglesHouses` models the `"houses"`
key *inside* the `"angles"` dictionary — charts built by
`engine.calculate_chart` do not put one there (see
`calculateChartModel`), but `scanner._find_house_for_position` reads it. -/
structure Chart : Type where
  planets : List (String × Option ℚ)
  houses : List (String × ℚ)
  anglesAscendant : Option ℚ := none
  anglesMC : Option ℚ := none
  anglesHouses : List (String × ℚ) := []
deriving DecidableEq, Repr

/-- The points dict built by `calculate_natal_aspects`: planets with a
present longitude, then ASC and MC from the chart's angles. -/
def natalPoints (chart : Chart) : List (String × ℚ) :=
  (chart.planets.filterMap (fun nd => nd.2.map (fun l => (nd.1, l))))
    ++ (match chart.anglesAscendant with
        | some a => [("ASC", a)]
        | none => [])
    ++ (match chart.anglesMC with
        | some m => [("MC", m)]
        | none => [])

/-- `calculate_natal_aspects`. -/
def calculateNatalAspects (chartData : Chart) (useWiderOrbs : Bool) :
    List AspectEntry :=
  calculateAspectsBetweenPoints (natalPoints chartData) useWiderOrbs

/-- The planet points of a chart that have a present longitude, in
insertion order. -/
def presentPlanets (chart : Chart) : List (String × ℚ) :=
  chart.planets.filterMap (fun nd => nd.2.map (fun l => (nd.1, l)))

/-- `calculate_synastry_aspects`: user points (planets plus user ASC/MC)
against partner planets. -/
def calculateSynastryAspects (userChart partnerChart : Chart)
    (useWiderOrbs : Bool) : List AspectEntry :=
  let userPoints := natalPoints userChart
  let partnerPoints := presentPlanets partnerChart
  sortBy orbLt
    (userPoints.flatMap (fun p1 =>
      partnerPoints.flatMap (fun p2 =>
        aspectsForPairSyn p1.1 p2.1 p1.2 p2.2 useWiderOrbs)))

/-- `calculate_transit_aspects_to_natal`: transit planets against natal
planets (`planet1` models `transit_planet`, `planet2` models
`natal_planet`). -/
def calculateTransitAspectsToNatal (natalChart transitChart : Chart)
    (useWiderOrbs : Bool) : List AspectEntry :=
  let natalPts := presentPlanets natalChart
  let transitPts := presentPlanets transitChart
  sortBy orbLt
    (transitPts.flatMap (fun t =>
      natalPts.flatMap (fun n =>
        aspectsForPair t.1 n.1 t.2 n.2 useWiderOrbs)))

/-! ## `engine.py` — zodiac formatting and the House Mapper -/

/-- The zodiac sign list shared by `engine._decimal_to_dms` and
`scanner._get_sign_name`. -/
def zodiacSigns : List String :=
  ["Aries", "Taurus", "Gemini", "Cancer", "Leo", "Virgo",
   "Libra", "Scorpio", "Sagittarius", "Capricorn", "Aquarius", "Pisces"]

/-- Result of `engine._decimal_to_dms`. -/
structure Dms : Type where
  sign : String
  deg : ℤ
  mnt : ℤ
  str : String
deriving DecidableEq, Repr

/-- Two-digit zero padding (`{min:02d}`) for the values 0–59. -/
def pad2 (n : ℤ) : String :=
  if n < 10 then "0" ++ toString n else toString n

/-- ASCII apostrophe, written via its code point to keep the arc-minute
mark out of the source text. -/
def minuteMark : String := String.singleton (Char.ofNat 39)

/-- `engine._decimal_to_dms`: normalise a longitude into `[0, 360)` with
the same two `while` loops as `_normalize_angle`, then split it into
zodiac sign, degree and rounded minute, rolling a minute of 60 into the
next degree and a degree of 30 into the next sign. -/
def decimalToDms (longitude : ℚ) : Dms :=
  let lon := normalizeAngle longitude
  let signIndex : ℤ := pyInt (lon / 30)
  let degreesInSign := qmod lon 30
  let sign := zodiacSigns.getD signIndex.toNat ""
  let deg : ℤ := pyInt degreesInSign
  let minutesDecimal := (degreesInSign - (deg : ℚ)) * 60
  let mnt : ℤ := pyRoundInt minutesDecimal
  let rolled : String × ℤ × ℤ :=
    if 60 ≤ mnt then
      if 30 ≤ deg + 1 then
        (zodiacSigns.getD ((signIndex + 1) % 12).toNat "", 0, 0)
      else (sign, deg + 1, 0)
    else (sign, deg, mnt)
  { sign := rolled.1
    deg := rolled.2.1
    mnt := rolled.2.2
    str := rolled.1 ++ " " ++ toString rolled.2.1 ++ "°" ++ pad2 rolled.2.2 ++ minuteMark }

/-- The `(house index, cusp mod 360)` list that `engine._get_planet_house`
builds from the cusp dictionary, iterating `House1` … `House12` in that
fixed order and skipping missing keys. -/
def houseCuspList (houseCusps : List (String × ℚ)) : List (ℕ × ℚ) :=
  (List.range 12).filterMap (fun i =>
    (alookup houseCusps ("House" ++ toString (i + 1))).map
      (fun c => (i + 1, qmod c 360)))

/-- The per-pair membership test of `engine._get_planet_house`: wrapping
interval `[cur, 360) ∪ [0, next)` when `next < cur`, plain interval
`[cur, next)` otherwise. -/
def intervalTest (p cur next : ℚ) : Bool :=
  if next < cur then decide (cur ≤ p) || decide (p < next)
  else decide (cur ≤ p) && decide (p < next)

/-- One iteration of the interval scan of `engine._get_planet_house`:
test the point against the interval from cusp `i` to the next cusp
(cyclically). -/
def intervalStep (p : ℚ) (l : List (ℕ × ℚ)) (i : ℕ) : Option ℕ :=
  match l[i]?, l[(i + 1) % l.length]? with
  | some hc, some hc' => if intervalTest p hc.2 hc'.2 then some hc.1 else none
  | _, _ => none

/-- The sequential interval scan of `engine._get_planet_house`: the
first house index `i` (in `House1` … `House12` order) whose interval
`[cusp i, cusp (i+1))` — with wraparound on the last pair — contains the
point. -/
def scanIntervals (p : ℚ) (l : List (ℕ × ℚ)) : Option ℕ :=
  (List.range l.length).findSome? (intervalStep p l)

/-- The wraparound-aware distance key of the closest-cusp fallback of
`engine._get_planet_house`. -/
def cuspDistance (p c : ℚ) : ℚ :=
  qmin (qabs (c - p)) (qmin (qabs ((c + 360) - p)) (qabs (c - (p + 360))))

/-- `engine._get_planet_house`: the natal house containing a longitude,
or `none` when the cusp dictionary is empty.  If no interval matches,
fall back to the house with the angularly closest cusp. -/
def getPlanetHouse (planetLongitude : ℚ) (houseCusps : List (String × ℚ)) :
    Option ℕ :=
  if houseCusps.isEmpty then none
  else
    let planetLon := qmod planetLongitude 360
    let l := houseCuspList houseCusps
    if l.isEmpty then none
    else
      match scanIntervals planetLon l with
      | some h => some h
      | none => (minByKey (fun hc => cuspDistance planetLon hc.2) l).map (·.1)

/-- `engine.map_planet_to_natal_house`: `_get_planet_house` with the
`None ↦ House 1` fallback. -/
def mapPlanetToNatalHouse (planetLongitude : ℚ)
    (natalHouseCusps : List (String × ℚ)) : ℕ :=
  (getPlanetHouse planetLongitude natalHouseCusps).getD 1

/-- `engine.calculate_synastry_house_overlays`: place each partner
planet with a present longitude into the user's natal houses; a chart
without a non-empty `"houses"` entry raises `ValueError`. -/
def calculateSynastryHouseOverlays (userNatalChart : Chart)
    (partnerPlanets : List (String × Option ℚ)) :
    Except String (List (String × ℕ)) :=
  if userNatalChart.houses.isEmpty then
    .error "User natal chart missing houses data"
  else
    .ok (partnerPlanets.filterMap (fun pd =>
      pd.2.map (fun l => (pd.1, mapPlanetToNatalHouse l userNatalChart.houses))))

/-- The cusp dictionary `{"House1": c 0, …, "House12": c 11}` holding
all 12 houses. -/
def cuspsOf (c : Fin 12 → ℚ) : List (String × ℚ) :=
  [("House1", c 0), ("House2", c 1), ("House3", c 2), ("House4", c 3),
   ("House5", c 4), ("House6", c 5), ("House7", c 6), ("House8", c 7),
   ("House9", c 8), ("House10", c 9), ("House11", c 10), ("House12", c 11)]

/-- The `(house number, cusp)` pairs of a full 12-house dictionary with
cusps already in `[0, 360)`. -/
def cuspPairs (v : Fin 12 → ℚ) : List (ℕ × ℚ) :=
  [(1, v 0), (2, v 1), (3, v 2), (4, v 3), (5, v 4), (6, v 5),
   (7, v 6), (8, v 7), (9, v 8), (10, v 9), (11, v 10), (12, v 11)]

/-- A cusp set is valid when every cusp lies in `[0, 360)` and the 12
cusps are circularly strictly increasing: starting from some house `r`,
going once around the zodiac visits the cusps in strictly ascending
longitude order.  Placidus cusp sets always have this shape. -/
def cuspsValid (c : Fin 12 → ℚ) : Prop :=
  (∀ i : Fin 12, 0 ≤ c i ∧ c i < 360) ∧
  ∃ r : Fin 12, StrictMono (fun m : Fin 12 => c (r + m))

/-! ## Date/time parsing (`engine._datetime_to_utc`, `scanner.scan_period`)

Strings are processed on their character lists with structurally
recursive helpers: `splitChars` models `str.split`, `charsToInt?`
models `int(...)` (returning `none` where Python raises `ValueError`).
A missing list index (`parts[i]` out of range) and a failed `int()`
both become the single `ParseError` of the specification's taxonomy. -/

/-- `date.replace("/", "-")` (single-character replacement). -/
def replaceSlash (s : List Char) : List Char :=
  s.map (fun ch => if ch = '/' then '-' else ch)

/-- Python `s.split(sep)` for a one-character separator. -/
def splitChars (sep : Char) : List Char → List (List Char)
  | [] => [[]]
  | ch :: cs =>
    let r := splitChars sep cs
    if ch = sep then [] :: r
    else
      match r with
      | [] => [[ch]]
      | h :: t => (ch :: h) :: t

/-- Decimal digit value of a character. -/
def digitVal (ch : Char) : Option ℕ :=
  if '0' ≤ ch ∧ ch ≤ '9' then some (ch.toNat - '0'.toNat) else none

/-- Accumulating decimal reader. -/
def charsToNatGo : ℕ → List Char → Option ℕ
  | acc, [] => some acc
  | acc, ch :: cs =>
    match digitVal ch with
    | some v => charsToNatGo (acc * 10 + v) cs
    | none => none

/-- All-digit string to `ℕ`; `none` on the empty string or any
non-digit. -/
def charsToNat? : List Char → Option ℕ
  | [] => none
  | l => charsToNatGo 0 l

/-- Python `int(s)`: optional sign followed by digits; `none` models
`ValueError`. -/
def charsToInt? : List Char → Option ℤ
  | '-' :: cs => (charsToNat? cs).map (fun v => -(v : ℤ))
  | '+' :: cs => (charsToNat? cs).map (fun v => (v : ℤ))
  | cs => (charsToNat? cs).map (fun v => (v : ℤ))

/-- Gregorian leap year. -/
def isLeap (y : ℤ) : Bool := (y % 4 == 0 && y % 100 != 0) || y % 400 == 0

/-- Days in a month. -/
def daysInMonth (y m : ℤ) : ℤ :=
  if m = 2 then (if isLeap y then 29 else 28)
  else if m = 4 ∨ m = 6 ∨ m = 9 ∨ m = 11 then 30
  else 31

/-- The range checks of Python's `datetime(...)` constructor. -/
def dateTimeFieldsValid (y mo d h mi s : ℤ) : Bool :=
  decide (1 ≤ y) && decide (y ≤ 9999) && decide (1 ≤ mo) && decide (mo ≤ 12) &&
  decide (1 ≤ d) && decide (d ≤ daysInMonth y mo) &&
  decide (0 ≤ h) && decide (h ≤ 23) && decide (0 ≤ mi) && decide (mi ≤ 59) &&
  decide (0 ≤ s) && decide (s ≤ 59)

/-- The single parse-failure error of the specification's taxonomy
(`ValueError`/`IndexError` raised while parsing date/time input). -/
inductive ParseError : Type
  | malformed
deriving DecidableEq, Repr

/-- The parsing prefix of `engine._datetime_to_utc` (lines 79–103):
normalise `/` to `-`, split the date on `-` and the time on `:`,
convert the fields with `int(...)` (minute/second defaulting to 0 when
absent), and build the local `datetime`.  Everything after this point —
timezone resolution and the UTC shift — consumes the parsed fields
only. -/
def parseLocalDatetime (date time : String) :
    Except ParseError (ℤ × ℤ × ℤ × ℤ × ℤ × ℤ) :=
  let dateParts := splitChars '-' (replaceSlash date.data)
  let timeParts := splitChars ':' time.data
  match dateParts[0]?.bind charsToInt?, dateParts[1]?.bind charsToInt?,
        dateParts[2]?.bind charsToInt?,
        timeParts[0]?.bind charsToInt?,
        (if 1 < timeParts.length then timeParts[1]?.bind charsToInt? else some 0),
        (if 2 < timeParts.length then timeParts[2]?.bind charsToInt? else some 0) with
  | some y, some mo, some d, some h, some mi, some s =>
    if dateTimeFieldsValid y mo d h mi s then .ok (y, mo, d, h, mi, s)
    else .error .malformed
  | _, _, _, _, _, _ => .error .malformed

/-- `datetime.strptime(s, "%Y-%m-%d")`: exactly three all-digit fields
forming a valid calendar date. -/
def strptimeYMD (s : String) : Option (ℤ × ℤ × ℤ) :=
  match (splitChars '-' s.data).map charsToNat? with
  | [some y, some mo, some d] =>
    if dateTimeFieldsValid (y : ℤ) (mo : ℤ) (d : ℤ) 0 0 0 then
      some ((y : ℤ), (mo : ℤ), (d : ℤ))
    else none
  | _ => none

/-- Continuous day number of a Gregorian civil date (days since
1970-01-01); consecutive calendar days map to consecutive integers.
This is the day count underlying the Julian Day arithmetic: the
external `swe.julday` is an affine shift of it. -/
def daysFromCivil (y m d : ℤ) : ℤ :=
  let y' := if m ≤ 2 then y - 1 else y
  let era := Int.fdiv y' 400
  let yoe := y' - era * 400
  let mp := if m ≤ 2 then m + 9 else m - 3
  let doy := Int.fdiv (153 * mp + 2) 5 + d - 1
  let doe := yoe * 365 + Int.fdiv yoe 4 - Int.fdiv yoe 100 + doy
  era * 146097 + doe - 719468

/-- The Julian-Day-style time value of `engine._datetime_to_julian_day`:
integer day plus the mandatory decimal-hour fraction
`hour + minute/60 + second/3600`. -/
def julianDayOf (y mo d h mi s : ℤ) : ℚ :=
  (daysFromCivil y mo d : ℚ) + ((h : ℚ) + (mi : ℚ) / 60 + (s : ℚ) / 3600) / 24

/-! ## The Ephemeris Provider oracle

`swisseph` is the external Ephemeris Provider; its numeric queries are
modelled as an oracle.  `pos t p` is `swe.calc_ut` for body `p` at time
`t`, giving `(longitude, speed)`; `solEclipse`/`lunEclipse` are the
composites of `swe.sol_eclipse_when_loc`/`swe.lun_eclipse_when` started
at `t` and the Julian-Day-to-calendar-date conversion of
`scanner._detect_lunations_and_eclipses`, giving the calendar day of
the found eclipse (or `none` for a negative return flag or an
exception); `housesCusps`/`ascmc` are `swe.houses`. -/
structure Ephemeris : Type where
  pos : ℚ → String → ℚ × ℚ
  solEclipse : ℚ → ℚ → ℚ → Option ℤ
  lunEclipse : ℚ → Option ℤ
  housesCusps : ℚ → ℚ → ℚ → List ℚ
  ascmc : ℚ → ℚ → ℚ → ℚ × ℚ

/-- `engine._calculate_houses`: the cusp dictionary, handling provider
arrays of 12 elements (indices 0–11), of 13 elements (index 0 skipped)
and, as a fallback, any other length. -/
def calculateHousesModel (eph : Ephemeris) (jd lat lon : ℚ) :
    List (String × ℚ) :=
  let cusps := eph.housesCusps jd lat lon
  if cusps.length = 12 then
    (List.range 12).filterMap (fun i =>
      cusps[i]?.map (fun c => ("House" ++ toString (i + 1), c)))
  else if 13 ≤ cusps.length then
    (List.range 12).filterMap (fun i =>
      cusps[i + 1]?.map (fun c => ("House" ++ toString (i + 1), c)))
  else
    (List.range cusps.length).filterMap (fun i =>
      cusps[i]?.map (fun c => ("House" ++ toString (i + 1), c)))

/-- The list of bodies of `engine.PLANETS`. -/
def ENGINE_PLANETS : List String :=
  ["Sun", "Moon", "Mercury", "Venus", "Mars", "Jupiter", "Saturn",
   "Uranus", "Neptune", "Pluto", "Node", "Chiron"]

/-- `engine.calculate_chart`: parse the civil input first, then build
the chart from provider queries.  The timezone resolution between the
two steps is the external Geo-Timezone Resolver and does not touch the
parsed fields.  The resulting chart's `angles` dictionary carries only
Ascendant/MC data: its `anglesHouses` component is empty — the cusps
live in the top-level `houses` field. -/
def calculateChartModel (eph : Ephemeris) (date time : String)
    (lat lon : ℚ) : Except ParseError Chart :=
  match parseLocalDatetime date time with
  | .error e => .error e
  | .ok (y, mo, d, h, mi, s) =>
    let jd := julianDayOf y mo d h mi s
    let planets := ENGINE_PLANETS.map (fun p => (p, some ((eph.pos jd p).1)))
    let houses := calculateHousesModel eph jd lat lon
    let am := eph.ascmc jd lat lon
    .ok
      { planets := planets
        houses := houses
        anglesAscendant := some am.1
        anglesMC := some am.2
        anglesHouses := [] }

/-! ## `scanner.py` — the Transit Scanner -/

/-- `TransitScanner.RETROGRADE_PLANETS` (dict iteration order). -/
def RETROGRADE_PLANETS : List String :=
  ["Mercury", "Venus", "Mars", "Jupiter", "Saturn", "Uranus", "Neptune", "Pluto"]

/-- `TransitScanner.TRANSIT_PLANETS`. -/
def TRANSIT_PLANETS : List String :=
  ["Mars", "Jupiter", "Saturn", "Uranus", "Neptune", "Pluto"]

/-- `TransitScanner.INGRESS_PLANETS`. -/
def INGRESS_PLANETS : List String :=
  ["Sun", "Moon", "Mercury", "Venus", "Mars", "Jupiter", "Saturn",
   "Uranus", "Neptune", "Pluto"]

/-- `TransitScanner.ASPECTS` in dict order. -/
def scannerAspects : List (String × ℚ) :=
  [("Conjunction", 0), ("Sextile", 60), ("Square", 90), ("Trine", 120),
   ("Opposition", 180)]

/-- `MAX_ORB_APPLYING = 1.5`. -/
def MAX_ORB_APPLYING : ℚ := 3 / 2

/-- `MAX_ORB_SEPARATING = 1.0`. -/
def MAX_ORB_SEPARATING : ℚ := 1

/-- The natal target list of `_detect_transits_to_natal`. -/
def NATAL_TARGETS : List String :=
  ["Sun", "Moon", "Mercury", "Venus", "Mars", "Jupiter", "Saturn",
   "Uranus", "Neptune", "Pluto"]

/-- The dictionary returned by `scanner._calculate_aspect_exact`. -/
structure AspectInfo : Type where
  aspect : String
  angleDeg : ℚ
  orb : ℚ
  isApplying : Bool
deriving DecidableEq, Repr

/-- `scanner._calculate_aspect_exact`: the best (smallest-orb) aspect of
the transit/natal pair within the applying/separating orb limits, or
`none`.  Faithful details: with no previous-day position the
conservative separating limit applies and `is_applying` is stored as
`False`; the stored orb is rounded to 4 decimals and later candidates
are compared against the *rounded* stored orb. -/
def calcAspectExact (transitLong natalLong : ℚ)
    (prevTransitLong : Option ℚ) : Option AspectInfo :=
  let t := normalizeAngle transitLong
  let n := normalizeAngle natalLong
  let rawDiff := qabs (t - n)
  let diff := qmin rawDiff (360 - rawDiff)
  scannerAspects.foldl
    (fun best na =>
      let orb := qabs (diff - na.2)
      let isApplying : Option Bool :=
        match prevTransitLong with
        | none => none
        | some p =>
          let prevT := normalizeAngle p
          let prevRawDiff := qabs (prevT - n)
          let prevDiff := qmin prevRawDiff (360 - prevRawDiff)
          let prevOrb := qabs (prevDiff - na.2)
          some (decide (orb < prevOrb))
      let maxOrb : ℚ :=
        match isApplying with
        | none => MAX_ORB_SEPARATING
        | some b => if b then MAX_ORB_APPLYING else MAX_ORB_SEPARATING
      if orb ≤ maxOrb then
        match best with
        | none => some ⟨na.1, na.2, pyRound orb 4, isApplying.getD false⟩
        | some b =>
          if orb < b.orb then some ⟨na.1, na.2, pyRound orb 4, isApplying.getD false⟩
          else some b
      else best)
    none

/-- One scanner event dictionary.  `date` is the calendar day number
(`strftime("%Y-%m-%d")` is an order-embedding of day numbers into
strings, so sorting by day number models sorting by the date string);
fields not set by a given event kind keep their defaults. -/
structure Event : Type where
  date : ℤ
  type : String
  planet : String := ""
  direction : String := ""
  sign : String := ""
  eventText : String := ""
  description : String := ""
  position : String := ""
  target : String := ""
  natalPlanet : String := ""
  aspect : String := ""
  angleDeg : ℚ := 0
  orb : ℚ := 0
  isApplying : Bool := false
  natalPosition : String := ""
  houseImpact : String := ""
deriving DecidableEq, Repr

/-- `scanner._detect_retrograde_stations` for one day: walk the
retrograde-capable bodies; when the stored previous speed and today's
speed have strictly opposite signs, append a RETROGRADE event; store
today's speed in every case. -/
def detectRetrogradeStations (eph : Ephemeris) (d : ℤ)
    (prevSpeeds : List (String × ℚ)) : List Event × List (String × ℚ) :=
  RETROGRADE_PLANETS.foldl
    (fun acc planet =>
      let speed := (eph.pos (d : ℚ) planet).2
      let evs :=
        match alookup acc.2 planet with
        | some prevSpeed =>
          if prevSpeed > 0 ∧ speed < 0 then
            let longitude := (eph.pos (d : ℚ) planet).1
            let posData := decimalToDms longitude
            acc.1 ++ [{ date := d, type := "RETROGRADE", planet := planet,
                        direction := "retrograde",
                        eventText := planet ++ " turns Retrograde in " ++ posData.sign,
                        description := planet ++ " turns Retrograde in " ++ posData.sign,
                        position := posData.str }]
          else if prevSpeed < 0 ∧ speed > 0 then
            let longitude := (eph.pos (d : ℚ) planet).1
            let posData := decimalToDms longitude
            acc.1 ++ [{ date := d, type := "RETROGRADE", planet := planet,
                        direction := "direct",
                        eventText := planet ++ " turns Direct in " ++ posData.sign,
                        description := planet ++ " turns Direct in " ++ posData.sign,
                        position := posData.str }]
          else acc.1
        | none => acc.1
      (evs, aset acc.2 planet speed))
    ([], prevSpeeds)

/-- `scanner._detect_lunations_and_eclipses` for one day: Sun–Moon
minor-arc separation `< 13°` opens the New Moon window and `> 167°` the
Full Moon window; inside a window, an eclipse found by the search
started one day earlier and landing within ±1 calendar day upgrades the
event to ECLIPSE and suppresses the plain lunation. -/
def detectLunationsAndEclipses (eph : Ephemeris) (d : ℤ) (lat lon : ℚ) :
    List Event :=
  let sunLong := (eph.pos (d : ℚ) "Sun").1
  let moonLong := (eph.pos (d : ℚ) "Moon").1
  let separation0 := qabs (sunLong - moonLong)
  let separation := qmin separation0 (360 - separation0)
  if separation < 13 then
    let sunPos := decimalToDms sunLong
    match eph.solEclipse ((d : ℚ) - 1) lat lon with
    | some eclipseDay =>
      if (eclipseDay - d).natAbs ≤ 1 then
        [{ date := d, type := "ECLIPSE", planet := "Sun/Moon",
           eventText := "Solar Eclipse in " ++ sunPos.sign, position := sunPos.str }]
      else
        [{ date := d, type := "LUNATION", planet := "Sun/Moon",
           eventText := "New Moon in " ++ sunPos.sign, position := sunPos.str }]
    | none =>
      [{ date := d, type := "LUNATION", planet := "Sun/Moon",
         eventText := "New Moon in " ++ sunPos.sign, position := sunPos.str }]
  else if separation > 167 then
    let moonPos := decimalToDms moonLong
    match eph.lunEclipse ((d : ℚ) - 1) with
    | some eclipseDay =>
      if (eclipseDay - d).natAbs ≤ 1 then
        [{ date := d, type := "ECLIPSE", planet := "Sun/Moon",
           eventText := "Lunar Eclipse in " ++ moonPos.sign, position := moonPos.str }]
      else
        [{ date := d, type := "LUNATION", planet := "Sun/Moon",
           eventText := "Full Moon in " ++ moonPos.sign, position := moonPos.str }]
    | none =>
      [{ date := d, type := "LUNATION", planet := "Sun/Moon",
         eventText := "Full Moon in " ++ moonPos.sign, position := moonPos.str }]
  else []

/-- The INGRESS detection inlined in `scan_period`'s day loop: compare
today's sign index `int(normalized // 30)` with the stored one
(defaulting to today's when absent), emit an INGRESS event on change,
and always store today's index. -/
def detectIngress (eph : Ephemeris) (d : ℤ)
    (prevSigns : List (String × ℤ)) : List Event × List (String × ℤ) :=
  INGRESS_PLANETS.foldl
    (fun acc planet =>
      let longNow := (eph.pos (d : ℚ) planet).1
      let normalized := normalizeAngle longNow
      let currentSignIndex : ℤ := qfloor (normalized / 30)
      let prevSignIndex := (alookup acc.2 planet).getD currentSignIndex
      let evs :=
        if currentSignIndex ≠ prevSignIndex then
          let posData := decimalToDms normalized
          acc.1 ++ [{ date := d, type := "INGRESS", planet := planet,
                      sign := posData.sign,
                      eventText := planet ++ " enters " ++ posData.sign,
                      description := planet ++ " enters " ++ posData.sign,
                      position := posData.str }]
        else acc.1
      (evs, aset acc.2 planet currentSignIndex))
    ([], prevSigns)

/-- `scanner._find_house_for_position` reads the cusps from
`natal_chart["angles"]["houses"]`, sorts them by longitude, and scans
the consecutive (wraparound-aware) intervals. -/
def findHouseScan (longitude : ℚ) (l : List (String × ℚ)) : Option String :=
  (List.range l.length).findSome? (fun i =>
    match l[i]?, l[(i + 1) % l.length]? with
    | some hc, some hc' =>
      if (hc.2 ≤ longitude ∧ longitude < hc'.2) ∨
         (hc'.2 < hc.2 ∧ (longitude ≥ hc.2 ∨ longitude < hc'.2)) then
        some (hc.1.replace "House" "")
      else none
    | _, _ => none)

/-- `scanner._find_house_for_position`: `"Unknown"` when the chart has
no `angles.houses` entry, house `"1"` when no interval matches. -/
def findHouseForPosition (longitude : ℚ) (natalChart : Chart) : String :=
  let houses := natalChart.anglesHouses
  if houses.isEmpty then "Unknown"
  else
    let houseList := sortBy (fun a b : String × ℚ => decide (a.2 < b.2)) houses
    match findHouseScan longitude houseList with
    | some h => h
    | none => "1"

/-- The natal-target loop inside `_detect_transits_to_natal` for one
transit planet.  A target missing from the chart's planets is skipped
(`continue`); a target with a `None` longitude raises a `TypeError`
which the per-planet `except` swallows, aborting the remaining targets
of this transit planet but keeping the events already appended. -/
def transitAspectsLoop (eph : Ephemeris) (d : ℤ) (transitPlanetName : String)
    (transitLong prevTransitLong : ℚ) (natalChart : Chart) (target : String) :
    List String → List Event
  | [] => []
  | np :: rest =>
    match alookup natalChart.planets np with
    | none => transitAspectsLoop eph d transitPlanetName transitLong
        prevTransitLong natalChart target rest
    | some none => []
    | some (some natalLong) =>
      (match calcAspectExact transitLong natalLong (some prevTransitLong) with
       | none => []
       | some aspectInfo =>
         let transitPos := decimalToDms transitLong
         let natalPos := decimalToDms natalLong
         let houseImpact := findHouseForPosition transitLong natalChart
         [{ date := d, type := "TRANSIT", target := target,
            planet := transitPlanetName, natalPlanet := np,
            aspect := aspectInfo.aspect, angleDeg := aspectInfo.angleDeg,
            orb := pyRound aspectInfo.orb 2, isApplying := aspectInfo.isApplying,
            position := transitPos.str, natalPosition := natalPos.str,
            description := "Transit " ++ transitPlanetName ++ " " ++
              aspectInfo.aspect ++ " NATAL " ++ np ++ " (House " ++ houseImpact ++ ")",
            houseImpact := houseImpact }])
      ++ transitAspectsLoop eph d transitPlanetName transitLong
          prevTransitLong natalChart target rest

/-- `scanner._detect_transits_to_natal` for one day and one chart. -/
def detectTransitsToNatal (eph : Ephemeris) (d : ℤ) (natalChart : Chart)
    (target : String) : List Event :=
  TRANSIT_PLANETS.flatMap (fun tp =>
    let transitLong := (eph.pos (d : ℚ) tp).1
    let prevTransitLong := (eph.pos ((d : ℚ) - 1) tp).1
    transitAspectsLoop eph d tp transitLong prevTransitLong natalChart target
      NATAL_TARGETS)

/-- The per-scan mutable state of `TransitScanner`: previous-day speeds
and previous-day sign indices. -/
structure ScanState : Type where
  prevSpeeds : List (String × ℚ)
  prevSigns : List (String × ℤ)
deriving Repr

/-- The seeding of `prev_speeds` and `prev_signs` from the day before
the scan's start date. -/
def scanInit (eph : Ephemeris) (startDay : ℤ) : ScanState :=
  { prevSpeeds := RETROGRADE_PLANETS.map
      (fun p => (p, (eph.pos ((startDay : ℚ) - 1) p).2))
    prevSigns := INGRESS_PLANETS.map
      (fun p => (p, qfloor (normalizeAngle (eph.pos ((startDay : ℚ) - 1) p).1 / 30))) }

/-- One day of `scan_period`'s loop: retrograde stations, then
lunations/eclipses, then ingresses, then transits for the user chart
and (when present) the partner chart. -/
def scanDay (eph : Ephemeris) (natalChart : Chart) (partnerChart : Option Chart)
    (lat lon : ℚ) (d : ℤ) (st : ScanState) : List Event × ScanState :=
  let retro := detectRetrogradeStations eph d st.prevSpeeds
  let lun := detectLunationsAndEclipses eph d lat lon
  let ing := detectIngress eph d st.prevSigns
  let userTransits := detectTransitsToNatal eph d natalChart "User"
  let partnerTransits :=
    match partnerChart with
    | some pc => detectTransitsToNatal eph d pc "Partner"
    | none => []
  (retro.1 ++ lun ++ ing.1 ++ userTransits ++ partnerTransits,
   ⟨retro.2, ing.2⟩)

/-- The day loop of `scan_period`, threading the scanner state. -/
def scanDaysGo (eph : Ephemeris) (natalChart : Chart)
    (partnerChart : Option Chart) (lat lon : ℚ) :
    List ℤ → ScanState → List Event
  | [], _ => []
  | d :: rest, st =>
    let step := scanDay eph natalChart partnerChart lat lon d st
    step.1 ++ scanDaysGo eph natalChart partnerChart lat lon rest step.2

/-- The inclusive day range `start .. end` of the scan. -/
def daysList (startDay endDay : ℤ) : List ℤ :=
  (List.range (endDay - startDay + 1).toNat).map (fun i => startDay + (i : ℤ))

/-- The final sort key: date, then event type
(`key=lambda x: (x.get("date",""), x.get("type",""))`). -/
def eventLt (a b : Event) : Bool :=
  decide (a.date < b.date) || (a.date == b.date && decide (a.type < b.type))

/-- `scan_period` after date parsing: seed the state from the day
before the start, fold the day loop over the inclusive range, and
stably sort the events by date then type. -/
def scanPeriodDays (eph : Ephemeris) (natalChart : Chart)
    (partnerChart : Option Chart) (lat lon : ℚ) (startDay endDay : ℤ) :
    List Event :=
  sortBy eventLt
    (scanDaysGo eph natalChart partnerChart lat lon
      (daysList startDay endDay) (scanInit eph startDay))

/-- `scanner.scan_period`: `strptime` the two dates first — a malformed
date raises before any astronomical query — then run the day-stepped
scan. -/
def scanPeriodTop (eph : Ephemeris) (natalChart : Chart)
    (startDate endDate : String) (lat lon : ℚ)
    (partnerChart : Option Chart) : Except ParseError (List Event) :=
  match strptimeYMD startDate, strptimeYMD endDate with
  | some s, some e =>
    .ok (scanPeriodDays eph natalChart partnerChart lat lon
      (daysFromCivil s.1 s.2.1 s.2.2) (daysFromCivil e.1 e.2.1 e.2.2))
  | _, _ => .error .malformed

/-- Running `_detect_retrograde_stations` alone over a list of days,
threading its `prev_speeds` state (the scan loop restricted to rule 1). -/
def retroFold (eph : Ephemeris) : List ℤ → List (String × ℚ) →
    List Event × List (String × ℚ)
  | [], st => ([], st)
  | d :: rest, st =>
    let step := detectRetrogradeStations eph d st
    let restRun := retroFold eph rest step.2
    (step.1 ++ restRun.1, restRun.2)

/-! ## Concrete inputs used by witnesses and counterexamples -/

/-- Ephemeris for the synthetic retrograde series: Mercury's daily
speeds on days 0–3 are `+0.5, +0.1, −0.2, −0.4`; every other body moves
at constant speed `+1`. -/
def c5Eph : Ephemeris :=
  { pos := fun t p =>
      if p = "Mercury" then
        (0, if t = 0 then 1/2 else if t = 1 then 1/10
            else if t = 2 then -1/5 else if t = 3 then -2/5 else 1)
      else (0, 1)
    solEclipse := fun _ _ _ => none
    lunEclipse := fun _ => none
    housesCusps := fun _ _ _ => []
    ascmc := fun _ _ _ => (0, 0) }

/-- Ephemeris for the transit/house counterexample: transit Mars at
100° today and 98.8° yesterday (applying conjunction with the natal
Sun); every other body far from any aspect. -/
def c1Eph : Ephemeris :=
  { pos := fun t p =>
      if p = "Mars" then (if t = 0 then (100, 1) else (494/5, 1))
      else (173, 1)
    solEclipse := fun _ _ _ => none
    lunEclipse := fun _ => none
    housesCusps := fun _ _ _ => []
    ascmc := fun _ _ _ => (0, 0) }

/-- A natal chart of the shape `engine.calculate_chart` produces: the
natal Sun at 100°, twelve cusps in the top-level `houses` dict
(House4's cusp is exactly 100°), and — decisively — no `houses` entry
inside `angles`. -/
def c1Chart : Chart :=
  { planets := [("Sun", some 100)]
    houses := [("House1", 10), ("House2", 40), ("House3", 70), ("House4", 100),
               ("House5", 130), ("House6", 160), ("House7", 190), ("House8", 220),
               ("House9", 250), ("House10", 280), ("House11", 310), ("House12", 340)]
    anglesHouses := [] }

/-- The chart built by the chart-builder model from `c1Eph` for the
spec's reference birth data. -/
def c1BuiltChart : Chart :=
  (calculateChartModel c1Eph "1990-01-01" "12:00:00" (426977/10000) (233219/10000)).toOption.getD
    { planets := [], houses := [] }

/-- The Sun–Moon minor-arc separation computed by
`_detect_lunations_and_eclipses`. -/
def lunationSeparation (sunLong moonLong : ℚ) : ℚ :=
  qmin (qabs (sunLong - moonLong)) (360 - qabs (sunLong - moonLong))

/-- The lunation window: separation `< 13°` (New Moon) or `> 167°`
(Full Moon). -/
def inLunationWindow (sunLong moonLong : ℚ) : Bool :=
  decide (lunationSeparation sunLong moonLong < 13) ||
  decide (lunationSeparation sunLong moonLong > 167)

/-- The event-type test for lunation-rule events. -/
def isLunationKind (e : Event) : Bool :=
  e.type == "LUNATION" || e.type == "ECLIPSE"

/-- Ephemeris for the 31-day lunation witness: the Sun sits at 0°, the
Moon at 20° except on day 5 where it is at 0° — exactly one day of the
scanned window is inside a lunation window. -/
def c2Eph : Ephemeris :=
  { pos := fun t p =>
      if p = "Moon" then (if t = 5 then (0, 1) else (20, 1))
      else if p = "Sun" then (0, 1)
      else (100, 1)
    solEclipse := fun _ _ _ => none
    lunEclipse := fun _ => none
    housesCusps := fun _ _ _ => []
    ascmc := fun _ _ _ => (0, 0) }

/-- Ephemeris like `c2Eph` but whose solar-eclipse search finds an
eclipse on day 5. -/
def c2EphEclipse : Ephemeris :=
  { pos := c2Eph.pos
    solEclipse := fun _ _ _ => some 5
    lunEclipse := fun _ => none
    housesCusps := fun _ _ _ => []
    ascmc := fun _ _ _ => (0, 0) }

/-- An empty chart (no planets, no houses): the scan's transit rule
finds nothing against it. -/
def chartEmpty : Chart := { planets := [], houses := [] }

/-- The wraparound cusp set of the specification's example:
`House1 = 10°, House2 = 40°, …, House11 = 310°, House12 = 350°`. -/
def c3WrapFn : Fin 12 → ℚ :=
  fun k => if k.val = 11 then 350 else 10 + 30 * (k.val : ℚ)

/-! # Part 2 — Theorems -/

/-! ## Bridge lemmas for the primitives -/

theorem qfloor_eq (x : ℚ) : qfloor x = ⌊x⌋ := by
  rw [qfloor, Int.fdiv_eq_ediv _ (Int.ofNat_le.mpr (Nat.zero_le _)), Rat.floor_def]

theorem qabs_eq (x : ℚ) : qabs x = |x| := by
  rw [qabs]
  split
  · rw [abs_of_neg ‹x < 0›]
  · rw [abs_of_nonneg (le_of_not_lt ‹¬ x < 0›)]

theorem qmin_eq (a b : ℚ) : qmin a b = min a b := by
  rw [qmin, min_def]

theorem qmod_eq (x m : ℚ) : qmod x m = x - m * ⌊x / m⌋ := by
  rw [qmod, qfloor_eq]

theorem qmod_nonneg (x : ℚ) {m : ℚ} (hm : 0 < m) : 0 ≤ qmod x m := by
  rw [qmod_eq]
  have h := Int.floor_le (x / m)
  have h2 : m * ⌊x / m⌋ ≤ m * (x / m) := by
    exact mul_le_mul_of_nonneg_left h (le_of_lt hm)
  rw [mul_div_cancel₀ x (ne_of_gt hm)] at h2
  linarith

theorem qmod_lt (x : ℚ) {m : ℚ} (hm : 0 < m) : qmod x m < m := by
  rw [qmod_eq]
  have h := Int.lt_floor_add_one (x / m)
  have h2 : m * (x / m) < m * (⌊x / m⌋ + 1) := mul_lt_mul_of_pos_left h hm
  rw [mul_div_cancel₀ x (ne_of_gt hm)] at h2
  linarith

theorem qmod_eq_self {x m : ℚ} (hm : 0 < m) (h0 : 0 ≤ x) (h1 : x < m) :
    qmod x m = x := by
  rw [qmod_eq]
  have : ⌊x / m⌋ = 0 := by
    apply Int.floor_eq_zero_iff.mpr
    constructor
    · exact div_nonneg h0 (le_of_lt hm)
    · rw [div_lt_one hm]; exact h1
  rw [this]
  push_cast
  ring

theorem qmod_add_cancel (x m : ℚ) (hm : 0 < m) : qmod (x + m) m = qmod x m := by
  rw [qmod_eq, qmod_eq]
  have : (x + m) / m = x / m + 1 := by
    field_simp
  rw [this, Int.floor_add_one]
  push_cast
  ring

theorem qmod_sub_cancel (x m : ℚ) (hm : 0 < m) : qmod (x - m) m = qmod x m := by
  have := qmod_add_cancel (x - m) m hm
  rw [sub_add_cancel] at this
  exact this.symm

/-! ## The normalisation loops compute `x mod 360` -/

theorem addLoop_qmod (n : ℕ) (x : ℚ) : qmod (addLoop n x) 360 = qmod x 360 := by
  induction n generalizing x with
  | zero => rfl
  | succ n ih =>
    rw [addLoop]
    split
    · rw [ih, qmod_add_cancel _ _ (by norm_num)]
    · rfl

theorem subLoop_qmod (n : ℕ) (x : ℚ) : qmod (subLoop n x) 360 = qmod x 360 := by
  induction n generalizing x with
  | zero => rfl
  | succ n ih =>
    rw [subLoop]
    split
    · rw [ih, qmod_sub_cancel _ _ (by norm_num)]
    · rfl

theorem addLoop_nonneg (n : ℕ) (x : ℚ) (h : -(360 * (n : ℚ)) ≤ x) :
    0 ≤ addLoop n x := by
  induction n generalizing x with
  | zero =>
    simp only [Nat.cast_zero, mul_zero, neg_zero] at h
    simpa [addLoop] using h
  | succ n ih =>
    rw [addLoop]
    split
    · apply ih
      push_cast at h ⊢
      linarith
    · exact le_of_not_lt ‹¬ x < 0›

theorem subLoop_lt (n : ℕ) (x : ℚ) (h : x < 360 * (n : ℚ) + 360) :
    subLoop n x < 360 := by
  induction n generalizing x with
  | zero =>
    simp only [Nat.cast_zero, mul_zero, zero_add] at h
    simpa [subLoop] using h
  | succ n ih =>
    rw [subLoop]
    split
    · apply ih
      push_cast at h ⊢
      linarith
    · exact lt_of_not_le ‹¬ 360 ≤ x›

theorem subLoop_nonneg (n : ℕ) (x : ℚ) (h : 0 ≤ x) : 0 ≤ subLoop n x := by
  induction n generalizing x with
  | zero => simpa [subLoop] using h
  | succ n ih =>
    rw [subLoop]
    split
    · exact ih _ (by linarith [‹(360 : ℚ) ≤ x›])
    · exact h

theorem addFuel_sufficient (x : ℚ) : -(360 * ((addFuel x : ℕ) : ℚ)) ≤ x := by
  rw [addFuel, qfloor_eq]
  push_cast
  have h1 : ((-⌊x / 360⌋).toNat : ℤ) ≥ -⌊x / 360⌋ := Int.self_le_toNat _
  have h2 : (360 : ℚ) * ⌊x / 360⌋ ≤ x := by
    have := Int.floor_le (x / 360)
    have h3 : (360 : ℚ) * ⌊x / 360⌋ ≤ 360 * (x / 360) :=
      mul_le_mul_of_nonneg_left this (by norm_num)
    rw [mul_div_cancel₀ x (by norm_num : (360 : ℚ) ≠ 0)] at h3
    exact h3
  have h1' : ((-⌊x / 360⌋).toNat : ℚ) ≥ -(⌊x / 360⌋ : ℚ) := by
    exact_mod_cast h1
  nlinarith

theorem subFuel_sufficient (x : ℚ) : x < 360 * ((subFuel x : ℕ) : ℚ) + 360 := by
  rw [subFuel, qfloor_eq]
  push_cast
  have h1 : ((⌊x / 360⌋).toNat : ℤ) ≥ ⌊x / 360⌋ := Int.self_le_toNat _
  have h2 : x < 360 * ((⌊x / 360⌋ : ℚ) + 1) := by
    have := Int.lt_floor_add_one (x / 360)
    have h3 : 360 * (x / 360) < 360 * ((⌊x / 360⌋ : ℚ) + 1) :=
      mul_lt_mul_of_pos_left this (by norm_num)
    rw [mul_div_cancel₀ x (by norm_num : (360 : ℚ) ≠ 0)] at h3
    exact h3
  have h1' : ((⌊x / 360⌋).toNat : ℚ) ≥ (⌊x / 360⌋ : ℚ) := by exact_mod_cast h1
  nlinarith

/-- The fuelled loops compute exactly `x mod 360`. -/
theorem normalizeAngle_eq_qmod (x : ℚ) : normalizeAngle x = qmod x 360 := by
  rw [normalizeAngle]
  have hy : 0 ≤ addLoop (addFuel x) x := addLoop_nonneg _ _ (addFuel_sufficient x)
  have hlt : subLoop (subFuel (addLoop (addFuel x) x)) (addLoop (addFuel x) x) < 360 :=
    subLoop_lt _ _ (subFuel_sufficient _)
  have hge : 0 ≤ subLoop (subFuel (addLoop (addFuel x) x)) (addLoop (addFuel x) x) :=
    subLoop_nonneg _ _ hy
  have hq : qmod (subLoop (subFuel (addLoop (addFuel x) x)) (addLoop (addFuel x) x)) 360
      = qmod x 360 := by
    rw [subLoop_qmod, addLoop_qmod]
  rw [← qmod_eq_self (by norm_num : (0:ℚ) < 360) hge hlt, hq]

theorem normalizeAngle_mem (x : ℚ) :
    0 ≤ normalizeAngle x ∧ normalizeAngle x < 360 := by
  rw [normalizeAngle_eq_qmod]
  exact ⟨qmod_nonneg x (by norm_num), qmod_lt x (by norm_num)⟩

theorem normalizeAngle_idem (x : ℚ) :
    normalizeAngle (normalizeAngle x) = normalizeAngle x := by
  rw [normalizeAngle_eq_qmod, normalizeAngle_eq_qmod]
  exact qmod_eq_self (by norm_num)
    (qmod_nonneg x (by norm_num)) (qmod_lt x (by norm_num))

/-! ## Generic helper lemmas -/

theorem foldl_preserve {α β : Type} {P : β → Prop} (f : β → α → β)
    (l : List α) (b : β) (hb : P b) (hf : ∀ b a, P b → P (f b a)) :
    P (l.foldl f b) := by
  induction l generalizing b with
  | nil => exact hb
  | cons a l ih => exact ih _ (hf b a hb)

theorem pyRoundInt_le {y : ℚ} {k : ℤ} (h : y ≤ (k : ℚ)) : pyRoundInt y ≤ k := by
  have hfl : qfloor y = ⌊y⌋ := qfloor_eq y
  have hfk : ⌊y⌋ ≤ k := by
    have := Int.floor_le_floor h
    simpa using this
  rw [pyRoundInt, hfl]
  split
  · exact hfk
  · split
    · -- a half or more above the floor: the floor is strictly below k
      rename_i h1 h2
      have hy : (⌊y⌋ : ℚ) + 1/2 < y := by linarith
      by_contra hcon
      have : k ≤ ⌊y⌋ := by omega
      have : (k : ℚ) ≤ (⌊y⌋ : ℚ) := by exact_mod_cast this
      linarith
    · split
      · exact hfk
      · rename_i h1 h2 h3
        have hy : (⌊y⌋ : ℚ) + 1/2 ≤ y := by linarith
        by_contra hcon
        have hk : k ≤ ⌊y⌋ := by omega
        have : (k : ℚ) ≤ (⌊y⌋ : ℚ) := by exact_mod_cast hk
        linarith

theorem pyRound_le {x : ℚ} {k : ℤ} (dg : ℕ) (h : x ≤ (k : ℚ)) :
    pyRound x dg ≤ (k : ℚ) := by
  rw [pyRound]
  have hpow : (0 : ℚ) < ((10 ^ dg : ℕ) : ℚ) := by positivity
  rw [div_le_iff₀ hpow]
  have hy : x * ((10 ^ dg : ℕ) : ℚ) ≤ ((k * (10 ^ dg : ℕ) : ℤ) : ℚ) := by
    push_cast
    exact mul_le_mul_of_nonneg_right h (by positivity)
  have := pyRoundInt_le hy
  calc ((pyRoundInt (x * ((10 ^ dg : ℕ) : ℚ)) : ℤ) : ℚ)
      ≤ ((k * (10 ^ dg : ℕ) : ℤ) : ℚ) := by exact_mod_cast this
    _ = (k : ℚ) * ((10 ^ dg : ℕ) : ℚ) := by push_cast; ring

/-! ## Claim theorems -/

/-- **C7** — For every longitude `L` (any rational value, including
negative ones), `_normalize_angle` returns a value in `[0, 360)` and is
idempotent: `normalize(normalize(L)) = normalize(L)`. -/
theorem C7_normalize_range_and_idempotent (L : ℚ) :
    (0 ≤ normalizeAngle L ∧ normalizeAngle L < 360) ∧
    normalizeAngle (normalizeAngle L) = normalizeAngle L :=
  ⟨normalizeAngle_mem L, normalizeAngle_idem L⟩

/-- **C5** — Running the retrograde-station detector over the synthetic
per-day speed series `[+0.5, +0.1, −0.2, −0.4]` for Mercury (all other
bodies keeping constant positive speed), exactly one RETROGRADE event
fires, tagged `"retrograde"`, on the day of series index 2 (the
transition between indices 1 and 2); no `"direct"` event fires; and the
stored previous-day speed equals the current day's speed after every
day, whether or not a transition fired. -/
theorem C5_retrograde_station_series :
    ((retroFold c5Eph [0, 1, 2, 3] []).1.map
        (fun e => (e.date, e.type, e.planet, e.direction)) =
      [(2, "RETROGRADE", "Mercury", "retrograde")]) ∧
    alookup (retroFold c5Eph [0] []).2 "Mercury" = some (1/2) ∧
    alookup (retroFold c5Eph [0, 1] []).2 "Mercury" = some (1/10) ∧
    alookup (retroFold c5Eph [0, 1, 2] []).2 "Mercury" = some (-1/5) ∧
    alookup (retroFold c5Eph [0, 1, 2, 3] []).2 "Mercury" = some (-2/5) := by
  decide

/-- **C9** — When `_calculate_aspect_exact` is called without a
previous-day transit longitude, every aspect it returns carries
`is_applying = False` and an orb within the tighter separating limit
1.0°; an orb of 1.2° (inside the applying limit 1.5°) is rejected,
while an orb of exactly 1.0° is accepted. -/
theorem C9_no_prev_uses_separating_orb :
    (∀ (t n : ℚ) (r : AspectInfo), calcAspectExact t n none = some r →
      r.isApplying = false ∧ r.orb ≤ MAX_ORB_SEPARATING) ∧
    calcAspectExact (306/5) 0 none = none ∧
    calcAspectExact 61 0 none = some ⟨"Sextile", 60, 1, false⟩ := by
  refine ⟨?_, by decide, by decide⟩
  intro t n r
  rw [calcAspectExact]
  apply foldl_preserve
    (P := fun b : Option AspectInfo => b = some r →
      r.isApplying = false ∧ r.orb ≤ MAX_ORB_SEPARATING)
  · intro h
    exact absurd h (by simp)
  · intro b na hP
    dsimp only
    cases b with
    | none =>
      split
      · rename_i horb
        intro heq
        have hr := (Option.some.injEq _ _).mp heq
        have h1 : pyRound (qabs (qmin (qabs (normalizeAngle t - normalizeAngle n))
            (360 - qabs (normalizeAngle t - normalizeAngle n)) - na.2)) 4
            ≤ MAX_ORB_SEPARATING := by
          have : MAX_ORB_SEPARATING = ((1 : ℤ) : ℚ) := by norm_num [MAX_ORB_SEPARATING]
          rw [this] at horb ⊢
          exact pyRound_le 4 horb
        rw [← hr]
        exact ⟨rfl, h1⟩
      · intro heq
        exact absurd heq (by simp)
    | some b2 =>
      dsimp only
      split
      · split
        · rename_i horb hlt
          intro heq
          have hr := (Option.some.injEq _ _).mp heq
          have h1 : pyRound (qabs (qmin (qabs (normalizeAngle t - normalizeAngle n))
              (360 - qabs (normalizeAngle t - normalizeAngle n)) - na.2)) 4
              ≤ MAX_ORB_SEPARATING := by
            have : MAX_ORB_SEPARATING = ((1 : ℤ) : ℚ) := by norm_num [MAX_ORB_SEPARATING]
            rw [this] at horb ⊢
            exact pyRound_le 4 horb
          rw [← hr]
          exact ⟨rfl, h1⟩
        · intro heq
          exact hP heq
      · intro heq
        exact hP heq

/-- **C9 witness** — concrete run discharging the hypothesis of the
universally quantified part. -/
theorem C9_witness :
    (⟨"Sextile", 60, 1, false⟩ : AspectInfo).isApplying = false ∧
    (⟨"Sextile", 60, 1, false⟩ : AspectInfo).orb ≤ MAX_ORB_SEPARATING :=
  C9_no_prev_uses_separating_orb.1 61 0 _ (by decide)

/-! ## Aspect-engine lemmas -/

theorem getOrbForAspect_le_ten (p1 p2 : String) (k : AspectKind) (w : Bool) :
    getOrbForAspect p1 p2 k w ≤ 10 := by
  cases k <;> simp only [getOrbForAspect] <;> split <;> cases w <;> norm_num

theorem getOrbForAspect_mono (p1 p2 : String) (k : AspectKind) :
    getOrbForAspect p1 p2 k false ≤ getOrbForAspect p1 p2 k true := by
  cases k <;> simp only [getOrbForAspect] <;> split <;> norm_num

theorem insertSorted_perm {α : Type} (lt : α → α → Bool) (x : α) (l : List α) :
    (insertSorted lt x l).Perm (x :: l) := by
  induction l with
  | nil => exact List.Perm.refl _
  | cons y ys ih =>
    rw [insertSorted]
    split
    · exact List.Perm.refl _
    · exact ((ih.cons y).trans (List.Perm.swap x y ys))

theorem foldl_insertSorted_perm {α : Type} (lt : α → α → Bool) :
    ∀ (l acc : List α),
      (l.foldl (fun a x => insertSorted lt x a) acc).Perm (acc ++ l) := by
  intro l
  induction l with
  | nil => intro acc; simp
  | cons x xs ih =>
    intro acc
    have h1 := ih (insertSorted lt x acc)
    have h2 : (insertSorted lt x acc ++ xs).Perm (acc ++ x :: xs) := by
      have hp := insertSorted_perm lt x acc
      have := hp.append_right xs
      exact this.trans (List.perm_middle.symm)
    exact h1.trans h2

theorem sortBy_perm {α : Type} (lt : α → α → Bool) (l : List α) :
    (sortBy lt l).Perm l := by
  have := foldl_insertSorted_perm lt l []
  simpa [sortBy] using this

theorem mem_sortBy {α : Type} {lt : α → α → Bool} {l : List α} {x : α} :
    x ∈ sortBy lt l ↔ x ∈ l := (sortBy_perm lt l).mem_iff

theorem aspectsForPair_mono {p1 p2 : String} {lon1 lon2 : ℚ} {e : AspectEntry}
    (h : e ∈ aspectsForPair p1 p2 lon1 lon2 false) :
    e ∈ aspectsForPair p1 p2 lon1 lon2 true := by
  simp only [aspectsForPair, List.mem_filterMap] at h ⊢
  obtain ⟨ai, hai, hcond⟩ := h
  refine ⟨ai, hai, ?_⟩
  split at hcond
  · rename_i hle
    rw [if_pos (le_trans hle (getOrbForAspect_mono p1 p2 ai.1))]
    exact hcond
  · exact absurd hcond (by simp)

theorem aspectsForPairSyn_eq (p1 p2 : String) (lon1 lon2 : ℚ) (w : Bool) :
    aspectsForPairSyn p1 p2 lon1 lon2 w = aspectsForPair p1 p2 lon1 lon2 w := by
  simp only [aspectsForPairSyn, aspectsForPair]
  apply List.filterMap_congr
  intro ai _
  by_cases h : qabs (calculateAngle lon1 lon2 - ai.2) ≤ 180
  · rw [if_pos h]
  · rw [if_neg h]
    rw [if_neg]
    intro hcon
    exact h (le_trans hcon (le_trans (getOrbForAspect_le_ten p1 p2 ai.1 w) (by norm_num)))

/-- **C6** — Exact-mode (narrow-orb) aspects are a subset of wide-mode
aspects: every maximum orb in exact mode is at most the wide-mode one,
and every entry of an exact-mode result list of the three aspect
calculators — with its pair, kind and (identical, hence `≤`) orb —
also occurs in the corresponding wide-mode list. -/
theorem C6_orb_monotonicity :
    (∀ (p1 p2 : String) (k : AspectKind),
      getOrbForAspect p1 p2 k false ≤ getOrbForAspect p1 p2 k true) ∧
    (∀ (c : Chart) (e : AspectEntry),
      e ∈ calculateNatalAspects c false → e ∈ calculateNatalAspects c true) ∧
    (∀ (u p : Chart) (e : AspectEntry),
      e ∈ calculateSynastryAspects u p false → e ∈ calculateSynastryAspects u p true) ∧
    (∀ (n t : Chart) (e : AspectEntry),
      e ∈ calculateTransitAspectsToNatal n t false →
        e ∈ calculateTransitAspectsToNatal n t true) := by
  refine ⟨getOrbForAspect_mono, ?_, ?_, ?_⟩
  · intro c e h
    rw [calculateNatalAspects, calculateAspectsBetweenPoints, mem_sortBy,
      List.mem_flatMap] at h ⊢
    obtain ⟨pq, hpq, he⟩ := h
    exact ⟨pq, hpq, aspectsForPair_mono he⟩
  · intro u p e h
    rw [calculateSynastryAspects, mem_sortBy, List.mem_flatMap] at h ⊢
    obtain ⟨p1, hp1, h⟩ := h
    rw [List.mem_flatMap] at h
    obtain ⟨p2, hp2, he⟩ := h
    rw [aspectsForPairSyn_eq] at he
    refine ⟨p1, hp1, ?_⟩
    rw [List.mem_flatMap]
    exact ⟨p2, hp2, by
      rw [aspectsForPairSyn_eq]
      exact aspectsForPair_mono he⟩
  · intro n t e h
    rw [calculateTransitAspectsToNatal, mem_sortBy, List.mem_flatMap] at h ⊢
    obtain ⟨tp, htp, h⟩ := h
    rw [List.mem_flatMap] at h
    obtain ⟨np, hnp, he⟩ := h
    refine ⟨tp, htp, ?_⟩
    rw [List.mem_flatMap]
    exact ⟨np, hnp, aspectsForPair_mono he⟩

/-- **C6 witness** — a natal chart with Sun at 0° and Moon at 93°: the
square found in exact mode (orb 3°) is also found in wide mode. -/
theorem C6_witness :
    (⟨"Sun", "Moon", .square, 93, 3⟩ : AspectEntry) ∈
      calculateNatalAspects
        { planets := [("Sun", some 0), ("Moon", some 93)], houses := [] } true :=
  C6_orb_monotonicity.2.1
    { planets := [("Sun", some 0), ("Moon", some 93)], houses := [] }
    ⟨"Sun", "Moon", .square, 93, 3⟩ (by decide)

/-! ## At most one aspect kind per pair (C8) -/

theorem aspectGapExclusion (a A1 A2 o1 o2 : ℚ) (ho1 : o1 ≤ 10) (ho2 : o2 ≤ 10)
    (hgap : 30 ≤ A2 - A1) (h1 : qabs (a - A1) ≤ o1)
    (h2 : qabs (a - A2) ≤ o2) : False := by
  rw [qabs_eq] at h1 h2
  obtain ⟨h1a, h1b⟩ := abs_le.mp h1
  obtain ⟨h2a, h2b⟩ := abs_le.mp h2
  linarith

theorem aspectsForPair_length_le_one (p1 p2 : String) (lon1 lon2 : ℚ)
    (w : Bool) : (aspectsForPair p1 p2 lon1 lon2 w).length ≤ 1 := by
  have hO : ∀ k, getOrbForAspect p1 p2 k w ≤ 10 :=
    fun k => getOrbForAspect_le_ten p1 p2 k w
  rw [aspectsForPair, aspectIdealList]
  set A := calculateAngle lon1 lon2 with hA
  simp only [List.filterMap_cons, List.filterMap_nil]
  by_cases h1 : qabs A ≤ getOrbForAspect p1 p2 .conjunction w
  · have h1z : qabs (A - 0) ≤ getOrbForAspect p1 p2 .conjunction w := by
      rw [sub_zero]; exact h1
    have n2 : ¬ (qabs (A - 180) ≤ getOrbForAspect p1 p2 .opposition w) :=
      fun h => aspectGapExclusion A 0 180 _ _ (hO _) (hO _) (by norm_num) h1z h
    have n3 : ¬ (qabs (A - 90) ≤ getOrbForAspect p1 p2 .square w) :=
      fun h => aspectGapExclusion A 0 90 _ _ (hO _) (hO _) (by norm_num) h1z h
    have n4 : ¬ (qabs (A - 120) ≤ getOrbForAspect p1 p2 .trine w) :=
      fun h => aspectGapExclusion A 0 120 _ _ (hO _) (hO _) (by norm_num) h1z h
    have n5 : ¬ (qabs (A - 60) ≤ getOrbForAspect p1 p2 .sextile w) :=
      fun h => aspectGapExclusion A 0 60 _ _ (hO _) (hO _) (by norm_num) h1z h
    simp [h1, n2, n3, n4, n5]
  · by_cases h2 : qabs (A - 180) ≤ getOrbForAspect p1 p2 .opposition w
    · have n3 : ¬ (qabs (A - 90) ≤ getOrbForAspect p1 p2 .square w) :=
        fun h => aspectGapExclusion A 90 180 _ _ (hO _) (hO _) (by norm_num) h h2
      have n4 : ¬ (qabs (A - 120) ≤ getOrbForAspect p1 p2 .trine w) :=
        fun h => aspectGapExclusion A 120 180 _ _ (hO _) (hO _) (by norm_num) h h2
      have n5 : ¬ (qabs (A - 60) ≤ getOrbForAspect p1 p2 .sextile w) :=
        fun h => aspectGapExclusion A 60 180 _ _ (hO _) (hO _) (by norm_num) h h2
      simp [h1, h2, n3, n4, n5]
    · by_cases h3 : qabs (A - 90) ≤ getOrbForAspect p1 p2 .square w
      · have n4 : ¬ (qabs (A - 120) ≤ getOrbForAspect p1 p2 .trine w) :=
          fun h => aspectGapExclusion A 90 120 _ _ (hO _) (hO _) (by norm_num) h3 h
        have n5 : ¬ (qabs (A - 60) ≤ getOrbForAspect p1 p2 .sextile w) :=
          fun h => aspectGapExclusion A 60 90 _ _ (hO _) (hO _) (by norm_num) h h3
        simp [h1, h2, h3, n4, n5]
      · by_cases h4 : qabs (A - 120) ≤ getOrbForAspect p1 p2 .trine w
        · have n5 : ¬ (qabs (A - 60) ≤ getOrbForAspect p1 p2 .sextile w) :=
            fun h => aspectGapExclusion A 60 120 _ _ (hO _) (hO _) (by norm_num) h h4
          simp [h1, h2, h3, h4, n5]
        · by_cases h5 : qabs (A - 60) ≤ getOrbForAspect p1 p2 .sextile w
          · simp [h1, h2, h3, h4, h5]
          · simp [h1, h2, h3, h4, h5]

theorem length_le_one_unique {α : Type} {l : List α} (h : l.length ≤ 1)
    {a b : α} (ha : a ∈ l) (hb : b ∈ l) : a = b := by
  match l, h, ha with
  | [x], _, ha =>
    have h1 : a = x := by simpa using ha
    have h2 : b = x := by simpa using hb
    rw [h1, h2]

theorem mem_aspectsForPair_names {p1 p2 : String} {lon1 lon2 : ℚ} {w : Bool}
    {e : AspectEntry} (h : e ∈ aspectsForPair p1 p2 lon1 lon2 w) :
    e.planet1 = p1 ∧ e.planet2 = p2 := by
  simp only [aspectsForPair, List.mem_filterMap] at h
  obtain ⟨ai, _, hcond⟩ := h
  split at hcond
  · cases hcond
    exact ⟨rfl, rfl⟩
  · exact absurd hcond (by simp)

theorem mem_allPairs_cons {α : Type} {z : α} {rest : List α} {u v : α} :
    (u, v) ∈ allPairs (z :: rest) ↔ (u = z ∧ v ∈ rest) ∨ (u, v) ∈ allPairs rest := by
  simp only [allPairs, List.mem_append, List.mem_map, Prod.mk.injEq]
  constructor
  · rintro (⟨y, hy, hu, hv⟩ | h)
    · exact Or.inl ⟨hu.symm, hv ▸ hy⟩
    · exact Or.inr h
  · rintro (⟨hu, hv⟩ | h)
    · exact Or.inl ⟨v, hv, hu.symm, rfl⟩
    · exact Or.inr h

theorem mem_allPairs_mem {α : Type} {l : List α} {u v : α}
    (h : (u, v) ∈ allPairs l) : u ∈ l ∧ v ∈ l := by
  induction l with
  | nil => simp [allPairs] at h
  | cons z rest ih =>
    rcases mem_allPairs_cons.mp h with ⟨hu, hv⟩ | h2
    · exact ⟨hu ▸ List.mem_cons_self z rest, List.mem_cons_of_mem z hv⟩
    · obtain ⟨h3, h4⟩ := ih h2
      exact ⟨List.mem_cons_of_mem z h3, List.mem_cons_of_mem z h4⟩

theorem fst_inj_of_nodup {pts : List (String × ℚ)}
    (hnd : (pts.map Prod.fst).Nodup) {u v : String × ℚ}
    (hu : u ∈ pts) (hv : v ∈ pts) (h : u.1 = v.1) : u = v := by
  have hp : pts.Pairwise (fun a b => a.1 ≠ b.1) := List.pairwise_map.mp hnd
  by_contra hne
  have hsym : Symmetric (fun a b : String × ℚ => a.1 ≠ b.1) :=
    fun a b hab hba => hab hba.symm
  exact (hp.forall hsym hu hv hne) h

/-- With pairwise-distinct names, a matching unordered name pair
determines the `allPairs` element. -/
theorem allPairs_name_unique {pts : List (String × ℚ)}
    (hnd : (pts.map Prod.fst).Nodup) {x1 y1 x2 y2 : String × ℚ}
    (h1 : (x1, y1) ∈ allPairs pts) (h2 : (x2, y2) ∈ allPairs pts)
    (hmatch : (x1.1 = x2.1 ∧ y1.1 = y2.1) ∨ (x1.1 = y2.1 ∧ y1.1 = x2.1)) :
    x1 = x2 ∧ y1 = y2 := by
  induction pts with
  | nil => simp [allPairs] at h1
  | cons z rest ih =>
    have hnd2 : (z.1 :: rest.map Prod.fst).Nodup := by
      rw [List.map_cons] at hnd
      exact hnd
    obtain ⟨hz, hndr⟩ := List.nodup_cons.mp hnd2
    have hname : ∀ u : String × ℚ, u ∈ rest → u.1 ≠ z.1 := by
      intro u hu heq
      exact hz (heq ▸ List.mem_map_of_mem Prod.fst hu)
    rcases mem_allPairs_cons.mp h1 with ⟨hx1, hy1⟩ | h1r
    · rcases mem_allPairs_cons.mp h2 with ⟨hx2, hy2⟩ | h2r
      · rcases hmatch with ⟨ha, hb⟩ | ⟨ha, hb⟩
        · exact ⟨hx1.trans hx2.symm, fst_inj_of_nodup hndr hy1 hy2 hb⟩
        · exact absurd (ha.symm.trans (hx1 ▸ rfl) : y2.1 = z.1) (hname y2 hy2)
      · obtain ⟨hx2m, hy2m⟩ := mem_allPairs_mem h2r
        rcases hmatch with ⟨ha, _⟩ | ⟨ha, _⟩
        · exact absurd (ha.symm.trans (hx1 ▸ rfl) : x2.1 = z.1) (hname x2 hx2m)
        · exact absurd (ha.symm.trans (hx1 ▸ rfl) : y2.1 = z.1) (hname y2 hy2m)
    · rcases mem_allPairs_cons.mp h2 with ⟨hx2, hy2⟩ | h2r
      · obtain ⟨hx1m, hy1m⟩ := mem_allPairs_mem h1r
        rcases hmatch with ⟨ha, _⟩ | ⟨_, hb⟩
        · exact absurd (ha.trans (hx2 ▸ rfl) : x1.1 = z.1) (hname x1 hx1m)
        · exact absurd (hb.trans (hx2 ▸ rfl) : y1.1 = z.1) (hname y1 hy1m)
      · exact ih hndr h1r h2r

/-- Core of C8 for one chart: in `_calculate_aspects_between_points`
over points with pairwise-distinct names, two entries for the same
unordered pair are the same entry. -/
theorem betweenPoints_unique {points : List (String × ℚ)}
    (hnd : (points.map Prod.fst).Nodup) {w : Bool} {e1 e2 : AspectEntry}
    (h1 : e1 ∈ calculateAspectsBetweenPoints points w)
    (h2 : e2 ∈ calculateAspectsBetweenPoints points w)
    (hm : (e1.planet1 = e2.planet1 ∧ e1.planet2 = e2.planet2) ∨
          (e1.planet1 = e2.planet2 ∧ e1.planet2 = e2.planet1)) : e1 = e2 := by
  rw [calculateAspectsBetweenPoints, mem_sortBy, List.mem_flatMap] at h1 h2
  obtain ⟨pq1, hpq1, he1⟩ := h1
  obtain ⟨pq2, hpq2, he2⟩ := h2
  obtain ⟨u1, v1⟩ := pq1
  obtain ⟨u2, v2⟩ := pq2
  obtain ⟨hn1a, hn1b⟩ := mem_aspectsForPair_names he1
  obtain ⟨hn2a, hn2b⟩ := mem_aspectsForPair_names he2
  have hmatch : (u1.1 = u2.1 ∧ v1.1 = v2.1) ∨ (u1.1 = v2.1 ∧ v1.1 = u2.1) := by
    rcases hm with ⟨ha, hb⟩ | ⟨ha, hb⟩
    · exact Or.inl ⟨hn1a.symm.trans (ha.trans hn2a), hn1b.symm.trans (hb.trans hn2b)⟩
    · exact Or.inr ⟨hn1a.symm.trans (ha.trans hn2b), hn1b.symm.trans (hb.trans hn2a)⟩
  obtain ⟨hu, hv⟩ := allPairs_name_unique hnd hpq1 hpq2 hmatch
  subst hu
  subst hv
  exact length_le_one_unique (aspectsForPair_length_le_one u1.1 v1.1 u1.2 v1.2 w) he1 he2

/-- Core of C8 for two point lists (synastry/transit shape): in the
cross-product loop, two entries for the same (side-1 point, side-2
point) pair are the same entry. -/
theorem crossPoints_unique {as bs : List (String × ℚ)}
    (hndA : (as.map Prod.fst).Nodup) (hndB : (bs.map Prod.fst).Nodup)
    {w : Bool} {e1 e2 : AspectEntry}
    (h1 : e1 ∈ as.flatMap (fun a => bs.flatMap
      (fun b => aspectsForPair a.1 b.1 a.2 b.2 w)))
    (h2 : e2 ∈ as.flatMap (fun a => bs.flatMap
      (fun b => aspectsForPair a.1 b.1 a.2 b.2 w)))
    (hm : e1.planet1 = e2.planet1 ∧ e1.planet2 = e2.planet2) : e1 = e2 := by
  rw [List.mem_flatMap] at h1 h2
  obtain ⟨a1, ha1, h1⟩ := h1
  obtain ⟨a2, ha2, h2⟩ := h2
  rw [List.mem_flatMap] at h1 h2
  obtain ⟨b1, hb1, he1⟩ := h1
  obtain ⟨b2, hb2, he2⟩ := h2
  obtain ⟨hn1a, hn1b⟩ := mem_aspectsForPair_names he1
  obtain ⟨hn2a, hn2b⟩ := mem_aspectsForPair_names he2
  have ha : a1 = a2 := fst_inj_of_nodup hndA ha1 ha2
    (hn1a.symm.trans (hm.1.trans hn2a))
  have hb : b1 = b2 := fst_inj_of_nodup hndB hb1 hb2
    (hn1b.symm.trans (hm.2.trans hn2b))
  subst ha
  subst hb
  exact length_le_one_unique (aspectsForPair_length_le_one a1.1 b1.1 a1.2 b1.2 w) he1 he2

/-- **C8** — In every list returned by `calculate_natal_aspects`,
`calculate_synastry_aspects` or `calculate_transit_aspects_to_natal`
(points having pairwise-distinct names, as dict keys do), each
unordered pair of points appears with at most one aspect kind: two
entries naming the same pair are the same entry — because every maximum
orb is at most 10° and consecutive ideal aspect angles differ by at
least 30°, no separation is within tolerance of two kinds at once. -/
theorem C8_pair_aspect_unique :
    (∀ (c : Chart) (w : Bool), ((natalPoints c).map Prod.fst).Nodup →
      ∀ e1 e2 : AspectEntry, e1 ∈ calculateNatalAspects c w →
        e2 ∈ calculateNatalAspects c w →
        ((e1.planet1 = e2.planet1 ∧ e1.planet2 = e2.planet2) ∨
         (e1.planet1 = e2.planet2 ∧ e1.planet2 = e2.planet1)) → e1 = e2) ∧
    (∀ (u p : Chart) (w : Bool), ((natalPoints u).map Prod.fst).Nodup →
      ((presentPlanets p).map Prod.fst).Nodup →
      ∀ e1 e2 : AspectEntry, e1 ∈ calculateSynastryAspects u p w →
        e2 ∈ calculateSynastryAspects u p w →
        e1.planet1 = e2.planet1 ∧ e1.planet2 = e2.planet2 → e1 = e2) ∧
    (∀ (n t : Chart) (w : Bool), ((presentPlanets t).map Prod.fst).Nodup →
      ((presentPlanets n).map Prod.fst).Nodup →
      ∀ e1 e2 : AspectEntry, e1 ∈ calculateTransitAspectsToNatal n t w →
        e2 ∈ calculateTransitAspectsToNatal n t w →
        e1.planet1 = e2.planet1 ∧ e1.planet2 = e2.planet2 → e1 = e2) := by
  refine ⟨?_, ?_, ?_⟩
  · intro c w hnd e1 e2 h1 h2 hm
    rw [calculateNatalAspects] at h1 h2
    exact betweenPoints_unique hnd h1 h2 hm
  · intro u p w hndU hndP e1 e2 h1 h2 hm
    rw [calculateSynastryAspects, mem_sortBy] at h1 h2
    simp only [aspectsForPairSyn_eq] at h1 h2
    exact crossPoints_unique hndU hndP h1 h2 hm
  · intro n t w hndT hndN e1 e2 h1 h2 hm
    rw [calculateTransitAspectsToNatal, mem_sortBy] at h1 h2
    exact crossPoints_unique hndT hndN h1 h2 hm

/-- **C8 witness** — concrete natal run discharging the hypotheses of
the first conjunct. -/
theorem C8_witness :
    (⟨"Sun", "Moon", .square, 90, 0⟩ : AspectEntry) =
      ⟨"Sun", "Moon", .square, 90, 0⟩ :=
  C8_pair_aspect_unique.1
    { planets := [("Sun", some 0), ("Moon", some 90)], houses := [] } false
    (by decide) _ _ (by decide) (by decide) (Or.inl ⟨rfl, rfl⟩)

/-! ## House overlays (C10) -/

/-- **C10** — `calculate_synastry_house_overlays` raises `ValueError`
when the target chart has no non-empty `houses` entry; otherwise it
silently omits every planet whose longitude is `None` and returns a
house number for exactly the planets with a present longitude. -/
theorem C10_overlays_error_and_skip :
    (∀ (u : Chart) (pp : List (String × Option ℚ)), u.houses = [] →
      calculateSynastryHouseOverlays u pp =
        .error "User natal chart missing houses data") ∧
    (∀ (u : Chart) (pp : List (String × Option ℚ)), u.houses ≠ [] →
      ∃ m, calculateSynastryHouseOverlays u pp = .ok m ∧
        (∀ n h, (n, h) ∈ m →
          ∃ l, (n, some l) ∈ pp ∧ h = mapPlanetToNatalHouse l u.houses) ∧
        (∀ n l, (n, some l) ∈ pp →
          (n, mapPlanetToNatalHouse l u.houses) ∈ m)) := by
  constructor
  · intro u pp hu
    rw [calculateSynastryHouseOverlays, if_pos (by rw [hu]; rfl)]
  · intro u pp hu
    have hne : u.houses.isEmpty = false := by
      cases hh : u.houses with
      | nil => exact absurd hh hu
      | cons a l => rfl
    refine ⟨_, by rw [calculateSynastryHouseOverlays, if_neg (by rw [hne]; simp)], ?_, ?_⟩
    · intro n h hmem
      rw [List.mem_filterMap] at hmem
      obtain ⟨⟨name, olong⟩, hpd, hf⟩ := hmem
      cases olong with
      | none => exact absurd hf (by simp)
      | some l =>
        simp only [Option.map_some] at hf
        cases hf
        exact ⟨l, hpd, rfl⟩
    · intro n l hmem
      rw [List.mem_filterMap]
      exact ⟨(n, some l), hmem, rfl⟩

/-- **C10 witness** — an empty-houses chart errors; a chart with houses
maps `Sun` (present longitude) and omits `Moon` (absent longitude). -/
theorem C10_witness :
    (calculateSynastryHouseOverlays { planets := [], houses := [] }
      [("Sun", some 100)] =
        .error "User natal chart missing houses data") ∧
    (∃ m, calculateSynastryHouseOverlays
        { planets := [], houses := [("House1", 0)] }
        [("Sun", some 100), ("Moon", none)] = .ok m ∧
      (∀ n h, (n, h) ∈ m →
        ∃ l, (n, some l) ∈ [("Sun", (some 100 : Option ℚ)), ("Moon", none)] ∧
          h = mapPlanetToNatalHouse l [("House1", (0 : ℚ))]) ∧
      (∀ n l, (n, some l) ∈ [("Sun", (some 100 : Option ℚ)), ("Moon", none)] →
        (n, mapPlanetToNatalHouse l [("House1", (0 : ℚ))]) ∈ m)) :=
  ⟨C10_overlays_error_and_skip.1 { planets := [], houses := [] }
      [("Sun", some 100)] rfl,
   C10_overlays_error_and_skip.2 { planets := [], houses := [("House1", 0)] }
      [("Sun", some 100), ("Moon", none)] (by simp)⟩

/-! ## C1 — the TRANSIT event's house field -/

/-- **C1** (the claim fails on the code) — Charts built by
`engine.calculate_chart` carry no `houses` entry inside `angles`
(first conjunct), but `scanner._find_house_for_position` reads
`natal_chart["angles"]["houses"]`; hence the TRANSIT event emitted for
transit Mars 100° conjunct the natal Sun 100° carries
`house_impact = "Unknown"`, while the House Mapper
(`engine._get_planet_house`) assigns house 4 to longitude 100° under
the same natal cusps. -/
theorem C1_house_impact_unknown :
    (∀ (eph : Ephemeris) (date time : String) (lat lon : ℚ) (c : Chart),
      calculateChartModel eph date time lat lon = .ok c → c.anglesHouses = []) ∧
    ((detectTransitsToNatal c1Eph 0 c1Chart "User").map
        (fun e => (e.type, e.planet, e.natalPlanet, e.aspect, e.houseImpact)) =
      [("TRANSIT", "Mars", "Sun", "Conjunction", "Unknown")]) ∧
    getPlanetHouse 100 c1Chart.houses = some 4 ∧
    findHouseForPosition 100 c1Chart = "Unknown" := by
  refine ⟨?_, by decide, by decide, by decide⟩
  intro eph date time lat lon c h
  rw [calculateChartModel] at h
  cases hp : parseLocalDatetime date time with
  | error e =>
    rw [hp] at h
    exact absurd h (by simp)
  | ok f =>
    obtain ⟨y, mo, d, hh, mi, s⟩ := f
    rw [hp] at h
    cases h
    rfl

/-- **C1 witness** — the chart-builder run for the reference birth data
indeed yields an empty `angles.houses`. -/
theorem C1_witness : c1BuiltChart.anglesHouses = [] :=
  C1_house_impact_unknown.1 c1Eph "1990-01-01" "12:00:00"
    (426977/10000) (233219/10000) c1BuiltChart (by rfl)

/-! ## C4 — malformed date/time input -/

/-- **C4** — A date or time string rejected by the parsing stage makes
chart construction fail with the `ParseError`, with a result
independent of the Ephemeris Provider (no astronomical computation is
consulted); likewise `scan_period` fails when either date string is
rejected by `strptime`.  Non-numeric fields and missing components are
rejected. -/
theorem C4_parse_error_before_computation :
    (∀ (date time : String) (e : ParseError),
      parseLocalDatetime date time = .error e →
      ∀ (eph : Ephemeris) (lat lon : ℚ),
        calculateChartModel eph date time lat lon = .error e) ∧
    (∀ (s e : String), strptimeYMD s = none ∨ strptimeYMD e = none →
      ∀ (eph : Ephemeris) (natal : Chart) (lat lon : ℚ) (partner : Option Chart),
        scanPeriodTop eph natal s e lat lon partner = .error .malformed) ∧
    parseLocalDatetime "1990-ab-01" "12:00" = .error .malformed ∧
    parseLocalDatetime "1990" "12:00" = .error .malformed ∧
    strptimeYMD "not-a-date" = none := by
  refine ⟨?_, ?_, rfl, rfl, by decide⟩
  · intro date time e hp eph lat lon
    rw [calculateChartModel, hp]
  · intro s e h eph natal lat lon partner
    rw [scanPeriodTop]
    rcases h with h | h
    · rw [h]
    · cases hs : strptimeYMD s with
      | none => rfl
      | some v => rw [h]

/-- **C4 witness** — concrete malformed inputs run through both
entry points, with the Ephemeris oracle varied. -/
theorem C4_witness :
    (calculateChartModel c1Eph "1990-ab-01" "12:00" 0 0 = .error .malformed) ∧
    (calculateChartModel c5Eph "1990-ab-01" "12:00" 0 0 = .error .malformed) ∧
    (scanPeriodTop c1Eph c1Chart "not-a-date" "2026-01-01" 0 0 none =
      .error .malformed) :=
  ⟨C4_parse_error_before_computation.1 "1990-ab-01" "12:00" .malformed rfl c1Eph 0 0,
   C4_parse_error_before_computation.1 "1990-ab-01" "12:00" .malformed rfl c5Eph 0 0,
   C4_parse_error_before_computation.2.1 "not-a-date" "2026-01-01"
     (Or.inl (by decide)) c1Eph c1Chart 0 0 none⟩

/-! ## Lunation/eclipse counting (C2) -/

theorem detectLunations_length (eph : Ephemeris) (d : ℤ) (lat lon : ℚ) :
    (detectLunationsAndEclipses eph d lat lon).length =
      if inLunationWindow (eph.pos (d : ℚ) "Sun").1 (eph.pos (d : ℚ) "Moon").1
      then 1 else 0 := by
  rw [detectLunationsAndEclipses, inLunationWindow, lunationSeparation]
  by_cases h1 : qmin (qabs ((eph.pos (d : ℚ) "Sun").1 - (eph.pos (d : ℚ) "Moon").1))
      (360 - qabs ((eph.pos (d : ℚ) "Sun").1 - (eph.pos (d : ℚ) "Moon").1)) < 13
  · rw [if_pos h1]
    cases eph.solEclipse ((d : ℚ) - 1) lat lon with
    | none => simp [h1]
    | some ev => split <;> (try split) <;> simp_all
  · rw [if_neg h1]
    by_cases h2 : qmin (qabs ((eph.pos (d : ℚ) "Sun").1 - (eph.pos (d : ℚ) "Moon").1))
        (360 - qabs ((eph.pos (d : ℚ) "Sun").1 - (eph.pos (d : ℚ) "Moon").1)) > 167
    · rw [if_pos h2]
      cases eph.lunEclipse ((d : ℚ) - 1) with
      | none => simp [h1, h2]
      | some ev => split <;> (try split) <;> simp_all
    · rw [if_neg h2]
      simp [h1, h2]

theorem detectLunations_kinds {eph : Ephemeris} {d : ℤ} {lat lon : ℚ}
    {e : Event} (he : e ∈ detectLunationsAndEclipses eph d lat lon) :
    isLunationKind e = true := by
  rw [detectLunationsAndEclipses] at he
  split at he
  · split at he
    · split at he <;>
        (rw [List.mem_singleton] at he; subst he; rfl)
    · rw [List.mem_singleton] at he; subst he; rfl
  · split at he
    · split at he
      · split at he <;>
          (rw [List.mem_singleton] at he; subst he; rfl)
      · rw [List.mem_singleton] at he; subst he; rfl
    · exact absurd he (List.not_mem_nil e)

theorem detectRetro_types (eph : Ephemeris) (d : ℤ)
    (st : List (String × ℚ)) :
    ∀ e ∈ (detectRetrogradeStations eph d st).1, e.type = "RETROGRADE" := by
  rw [detectRetrogradeStations]
  refine foldl_preserve
    (P := fun acc : List Event × List (String × ℚ) =>
      ∀ e ∈ acc.1, e.type = "RETROGRADE") _ _ _ ?_ ?_
  · intro e he
    exact absurd he (List.not_mem_nil e)
  · intro b a hP
    dsimp only
    intro e he
    split at he
    · split at he
      · rcases List.mem_append.mp he with h | h
        · exact hP e h
        · rw [List.mem_singleton] at h; subst h; rfl
      · split at he
        · rcases List.mem_append.mp he with h | h
          · exact hP e h
          · rw [List.mem_singleton] at h; subst h; rfl
        · exact hP e he
    · exact hP e he

theorem detectIngress_types (eph : Ephemeris) (d : ℤ)
    (st : List (String × ℤ)) :
    ∀ e ∈ (detectIngress eph d st).1, e.type = "INGRESS" := by
  rw [detectIngress]
  refine foldl_preserve
    (P := fun acc : List Event × List (String × ℤ) =>
      ∀ e ∈ acc.1, e.type = "INGRESS") _ _ _ ?_ ?_
  · intro e he
    exact absurd he (List.not_mem_nil e)
  · intro b a hP
    dsimp only
    intro e he
    split at he
    · rcases List.mem_append.mp he with h | h
      · exact hP e h
      · rw [List.mem_singleton] at h; subst h; rfl
    · exact hP e he

theorem transitLoop_types {eph : Ephemeris} {d : ℤ} {tp : String}
    {tl ptl : ℚ} {c : Chart} {target : String} :
    ∀ (l : List String) (e : Event),
      e ∈ transitAspectsLoop eph d tp tl ptl c target l → e.type = "TRANSIT" := by
  intro l
  induction l with
  | nil =>
    intro e he
    exact absurd he (List.not_mem_nil e)
  | cons np rest ih =>
    intro e he
    rw [transitAspectsLoop] at he
    split at he
    · exact ih e he
    · exact absurd he (List.not_mem_nil e)
    · rcases List.mem_append.mp he with h | h
      · split at h
        · exact absurd h (List.not_mem_nil e)
        · rw [List.mem_singleton] at h; subst h; rfl
      · exact ih e h

theorem detectTransits_types (eph : Ephemeris) (d : ℤ) (c : Chart)
    (tgt : String) :
    ∀ e ∈ detectTransitsToNatal eph d c tgt, e.type = "TRANSIT" := by
  intro e he
  rw [detectTransitsToNatal, List.mem_flatMap] at he
  obtain ⟨tp, _, h⟩ := he
  exact transitLoop_types _ e h

theorem scanDay_lunation_count (eph : Ephemeris) (natal : Chart)
    (partner : Option Chart) (lat lon : ℚ) (d : ℤ) (st : ScanState) :
    (scanDay eph natal partner lat lon d st).1.countP isLunationKind =
      if inLunationWindow (eph.pos (d : ℚ) "Sun").1 (eph.pos (d : ℚ) "Moon").1
      then 1 else 0 := by
  have h1 : (detectRetrogradeStations eph d st.prevSpeeds).1.countP isLunationKind = 0 :=
    List.countP_eq_zero.mpr (fun e he => by
      simp only [isLunationKind, detectRetro_types eph d st.prevSpeeds e he]
      decide)
  have h3 : (detectIngress eph d st.prevSigns).1.countP isLunationKind = 0 :=
    List.countP_eq_zero.mpr (fun e he => by
      simp only [isLunationKind, detectIngress_types eph d st.prevSigns e he]
      decide)
  have h4 : (detectTransitsToNatal eph d natal "User").countP isLunationKind = 0 :=
    List.countP_eq_zero.mpr (fun e he => by
      simp only [isLunationKind, detectTransits_types eph d natal "User" e he]
      decide)
  have h5 : (match partner with
      | some pc => detectTransitsToNatal eph d pc "Partner"
      | none => ([] : List Event)).countP isLunationKind = 0 := by
    cases partner with
    | none => rfl
    | some pc =>
      exact List.countP_eq_zero.mpr (fun e he => by
        simp only [isLunationKind, detectTransits_types eph d pc "Partner" e he]
        decide)
  have h2 : (detectLunationsAndEclipses eph d lat lon).countP isLunationKind =
      (detectLunationsAndEclipses eph d lat lon).length :=
    List.countP_eq_length.mpr (fun e he => detectLunations_kinds he)
  rw [scanDay.eq_def]
  dsimp only
  rw [List.countP_append, List.countP_append, List.countP_append,
    List.countP_append, h1, h3, h4, h5, h2, detectLunations_length]
  omega

theorem scanDaysGo_lunation_count (eph : Ephemeris) (natal : Chart)
    (partner : Option Chart) (lat lon : ℚ) :
    ∀ (days : List ℤ) (st : ScanState),
      (scanDaysGo eph natal partner lat lon days st).countP isLunationKind =
        days.countP (fun d : ℤ =>
          inLunationWindow (eph.pos (d : ℚ) "Sun").1 (eph.pos (d : ℚ) "Moon").1) := by
  intro days
  induction days with
  | nil => intro st; rfl
  | cons d rest ih =>
    intro st
    rw [scanDaysGo]
    rw [List.countP_append, scanDay_lunation_count, ih, List.countP_cons, add_comm]

/-- The scan's LUNATION/ECLIPSE count equals the number of scanned days
inside a lunation window. -/
theorem scanPeriodDays_lunation_count (eph : Ephemeris) (natal : Chart)
    (partner : Option Chart) (lat lon : ℚ) (startDay endDay : ℤ) :
    (scanPeriodDays eph natal partner lat lon startDay endDay).countP isLunationKind =
      (daysList startDay endDay).countP (fun d : ℤ =>
        inLunationWindow (eph.pos (d : ℚ) "Sun").1 (eph.pos (d : ℚ) "Moon").1) := by
  rw [scanPeriodDays, (sortBy_perm eventLt _).countP_eq, scanDaysGo_lunation_count]

theorem countP_two_of_mem {α : Type} {p : α → Bool} {l : List α} {a b : α}
    (ha : a ∈ l) (hb : b ∈ l) (hne : a ≠ b) (pa : p a) (pb : p b) :
    2 ≤ l.countP p := by
  induction l with
  | nil => cases ha
  | cons z t ih =>
    rw [List.countP_cons]
    rcases List.mem_cons.mp ha with rfl | hat
    · rcases List.mem_cons.mp hb with rfl | hbt
      · exact absurd rfl hne
      · have h1 : 0 < t.countP p := List.countP_pos_iff.mpr ⟨b, hbt, pb⟩
        rw [if_pos pa]
        omega
    · rcases List.mem_cons.mp hb with rfl | hbt
      · have h1 : 0 < t.countP p := List.countP_pos_iff.mpr ⟨a, hat, pa⟩
        rw [if_pos pb]
        omega
      · have := ih hat hbt
        omega

/-- **C2** — Per scanned day the lunation rule emits exactly one
LUNATION-or-ECLIPSE event inside a window (separation `< 13°` or
`> 167°`) and none outside; inside a window the event is an ECLIPSE
exactly when the eclipse search anchored one day earlier lands within
±1 calendar day (suppressing the plain lunation), and a LUNATION
otherwise; over any 31 consecutive scanned days containing exactly one
in-window day, `scan_period` emits exactly one LUNATION-or-ECLIPSE
event, and never both kinds. -/
theorem C2_lunation_eclipse_exclusive :
    (∀ (eph : Ephemeris) (d : ℤ) (lat lon : ℚ),
      (detectLunationsAndEclipses eph d lat lon).length =
        if inLunationWindow (eph.pos (d : ℚ) "Sun").1 (eph.pos (d : ℚ) "Moon").1
        then 1 else 0) ∧
    (∀ (eph : Ephemeris) (d : ℤ) (lat lon : ℚ),
      lunationSeparation (eph.pos (d : ℚ) "Sun").1 (eph.pos (d : ℚ) "Moon").1 < 13 →
      (detectLunationsAndEclipses eph d lat lon).map Event.type =
        (match eph.solEclipse ((d : ℚ) - 1) lat lon with
         | some e => if (e - d).natAbs ≤ 1 then ["ECLIPSE"] else ["LUNATION"]
         | none => ["LUNATION"])) ∧
    (∀ (eph : Ephemeris) (d : ℤ) (lat lon : ℚ),
      ¬ lunationSeparation (eph.pos (d : ℚ) "Sun").1 (eph.pos (d : ℚ) "Moon").1 < 13 →
      lunationSeparation (eph.pos (d : ℚ) "Sun").1 (eph.pos (d : ℚ) "Moon").1 > 167 →
      (detectLunationsAndEclipses eph d lat lon).map Event.type =
        (match eph.lunEclipse ((d : ℚ) - 1) with
         | some e => if (e - d).natAbs ≤ 1 then ["ECLIPSE"] else ["LUNATION"]
         | none => ["LUNATION"])) ∧
    (∀ (eph : Ephemeris) (natal : Chart) (partner : Option Chart)
        (lat lon : ℚ) (s : ℤ),
      (daysList s (s + 30)).countP (fun d : ℤ =>
        inLunationWindow (eph.pos (d : ℚ) "Sun").1 (eph.pos (d : ℚ) "Moon").1) = 1 →
      (scanPeriodDays eph natal partner lat lon s (s + 30)).countP isLunationKind = 1 ∧
      ¬ ∃ e1 e2 : Event,
        e1 ∈ scanPeriodDays eph natal partner lat lon s (s + 30) ∧
        e2 ∈ scanPeriodDays eph natal partner lat lon s (s + 30) ∧
        e1.type = "LUNATION" ∧ e2.type = "ECLIPSE") := by
  refine ⟨detectLunations_length, ?_, ?_, ?_⟩
  · intro eph d lat lon h
    rw [lunationSeparation] at h
    rw [detectLunationsAndEclipses]
    rw [if_pos h]
    cases eph.solEclipse ((d : ℚ) - 1) lat lon with
    | none => rfl
    | some ev =>
      by_cases hc : (ev - d).natAbs ≤ 1
      · simp [hc]
      · simp [hc]
  · intro eph d lat lon h1 h2
    rw [lunationSeparation] at h1 h2
    rw [detectLunationsAndEclipses]
    rw [if_neg h1, if_pos h2]
    cases eph.lunEclipse ((d : ℚ) - 1) with
    | none => rfl
    | some ev =>
      by_cases hc : (ev - d).natAbs ≤ 1
      · simp [hc]
      · simp [hc]
  · intro eph natal partner lat lon s h
    have hc : (scanPeriodDays eph natal partner lat lon s (s + 30)).countP
        isLunationKind = 1 := by
      rw [scanPeriodDays_lunation_count]
      exact h
    refine ⟨hc, ?_⟩
    rintro ⟨e1, e2, h1, h2, t1, t2⟩
    have hne : e1 ≠ e2 := by
      intro heq
      rw [heq, t2] at t1
      exact absurd t1 (by decide)
    have p1 : isLunationKind e1 = true := by
      simp only [isLunationKind, t1]
      decide
    have p2 : isLunationKind e2 = true := by
      simp only [isLunationKind, t2]
      decide
    have := countP_two_of_mem h1 h2 hne p1 p2
    omega

/-- **C2 witness** — concrete runs: a New-Moon day whose eclipse search
hits within ±1 day yields exactly `["ECLIPSE"]`; over the plain 31-day
oracle with a single in-window day the scan emits exactly one
LUNATION-or-ECLIPSE event. -/
theorem C2_witness :
    ((detectLunationsAndEclipses c2EphEclipse 5 0 0).map Event.type = ["ECLIPSE"]) ∧
    (scanPeriodDays c2Eph chartEmpty none 0 0 0 (0 + 30)).countP isLunationKind = 1 :=
  ⟨C2_lunation_eclipse_exclusive.2.1 c2EphEclipse 5 0 0 (by decide),
   (C2_lunation_eclipse_exclusive.2.2.2 c2Eph chartEmpty none 0 0 0 (by decide)).1⟩

/-! ## The House Mapper on full cusp dictionaries (C3) -/

theorem houseCuspList_cuspsOf (c : Fin 12 → ℚ) :
    houseCuspList (cuspsOf c) =
      [(1, qmod (c 0) 360), (2, qmod (c 1) 360), (3, qmod (c 2) 360),
       (4, qmod (c 3) 360), (5, qmod (c 4) 360), (6, qmod (c 5) 360),
       (7, qmod (c 6) 360), (8, qmod (c 7) 360), (9, qmod (c 8) 360),
       (10, qmod (c 9) 360), (11, qmod (c 10) 360), (12, qmod (c 11) 360)] := rfl

theorem houseCuspList_entries (c : Fin 12 → ℚ) :
    ∀ e ∈ houseCuspList (cuspsOf c), 1 ≤ e.1 ∧ e.1 ≤ 12 := by
  intro e he
  rw [houseCuspList_cuspsOf] at he
  simp only [List.mem_cons, List.not_mem_nil, or_false] at he
  rcases he with rfl | rfl | rfl | rfl | rfl | rfl | rfl | rfl | rfl | rfl | rfl | rfl <;>
    exact ⟨by norm_num, by norm_num⟩

theorem minByKey_foldl_mem {α : Type} (key : α → ℚ) :
    ∀ (l : List α) (acc : Option α) (x : α),
      l.foldl
        (fun acc x =>
          match acc with
          | none => some x
          | some b => if key x < key b then some x else some b) acc = some x →
      acc = some x ∨ x ∈ l := by
  intro l
  induction l with
  | nil =>
    intro acc x h
    exact Or.inl h
  | cons y t ih =>
    intro acc x h
    rw [List.foldl_cons] at h
    rcases ih _ x h with hacc | hmem
    · cases acc with
      | none =>
        simp only [Option.some.injEq] at hacc
        exact Or.inr (hacc ▸ List.mem_cons_self y t)
      | some b =>
        dsimp only at hacc
        split at hacc
        · simp only [Option.some.injEq] at hacc
          exact Or.inr (hacc ▸ List.mem_cons_self y t)
        · exact Or.inl hacc
    · exact Or.inr (List.mem_cons_of_mem y hmem)

theorem minByKey_foldl_isSome {α : Type} (key : α → ℚ) :
    ∀ (l : List α) (acc : Option α), acc.isSome →
      (l.foldl
        (fun acc x =>
          match acc with
          | none => some x
          | some b => if key x < key b then some x else some b) acc).isSome := by
  intro l
  induction l with
  | nil => intro acc h; exact h
  | cons y t ih =>
    intro acc h
    rw [List.foldl_cons]
    apply ih
    cases acc with
    | none => rfl
    | some b =>
      dsimp only
      split <;> rfl

theorem minByKey_isSome_cons {α : Type} (key : α → ℚ) (x : α) (t : List α) :
    (minByKey key (x :: t)).isSome := by
  rw [minByKey, List.foldl_cons]
  exact minByKey_foldl_isSome key t _ rfl

theorem minByKey_mem {α : Type} {key : α → ℚ} {l : List α} {x : α}
    (h : minByKey key l = some x) : x ∈ l := by
  rw [minByKey] at h
  rcases minByKey_foldl_mem key l none x h with hacc | hmem
  · exact absurd hacc (by simp)
  · exact hmem

theorem scanIntervals_mem {p : ℚ} {l : List (ℕ × ℚ)} {h : ℕ}
    (hs : scanIntervals p l = some h) : ∃ e ∈ l, e.1 = h := by
  rw [scanIntervals] at hs
  obtain ⟨t, _, hf⟩ := List.exists_of_findSome?_eq_some hs
  rw [intervalStep] at hf
  cases h1 : l[t]? with
  | none =>
    rw [h1] at hf
    simp at hf
  | some e1 =>
    cases h2 : l[(t + 1) % l.length]? with
    | none =>
      rw [h1, h2] at hf
      simp at hf
    | some e2 =>
      rw [h1, h2] at hf
      dsimp only at hf
      split at hf
      · exact ⟨e1, List.getElem?_mem h1, by simpa using hf⟩
      · exact absurd hf (by simp)

theorem getPlanetHouse_cuspsOf_total (c : Fin 12 → ℚ) (lon : ℚ) :
    ∃ h, getPlanetHouse lon (cuspsOf c) = some h ∧ 1 ≤ h ∧ h ≤ 12 := by
  rw [getPlanetHouse]
  rw [if_neg (by simp [cuspsOf])]
  rw [if_neg (by rw [houseCuspList_cuspsOf]; simp)]
  cases hs : scanIntervals (qmod lon 360) (houseCuspList (cuspsOf c)) with
  | some hnum =>
    obtain ⟨e, he, he1⟩ := scanIntervals_mem hs
    exact ⟨hnum, rfl, he1 ▸ (houseCuspList_entries c e he)⟩
  | none =>
    cases hm : minByKey (fun hc => cuspDistance (qmod lon 360) hc.2)
        (houseCuspList (cuspsOf c)) with
    | none =>
      exfalso
      rw [houseCuspList_cuspsOf] at hm
      have hsome := minByKey_isSome_cons
        (fun hc : ℕ × ℚ => cuspDistance (qmod lon 360) hc.2) (1, qmod (c 0) 360)
        [(2, qmod (c 1) 360), (3, qmod (c 2) 360),
         (4, qmod (c 3) 360), (5, qmod (c 4) 360), (6, qmod (c 5) 360),
         (7, qmod (c 6) 360), (8, qmod (c 7) 360), (9, qmod (c 8) 360),
         (10, qmod (c 9) 360), (11, qmod (c 10) 360), (12, qmod (c 11) 360)]
      rw [hm] at hsome
      exact absurd hsome (by simp)
    | some e =>
      exact ⟨e.1, rfl, houseCuspList_entries c e (minByKey_mem hm)⟩

theorem findSome?_unique {β : Type} {f : ℕ → Option β} {b : β} {t0 : ℕ} :
    ∀ {L : List ℕ}, t0 ∈ L → f t0 = some b →
      (∀ t ∈ L, t ≠ t0 → f t = none) → L.findSome? f = some b := by
  intro L
  induction L with
  | nil => intro h; cases h
  | cons x xs ih =>
    intro hmem hf0 hnone
    rw [List.findSome?_cons]
    rcases List.mem_cons.mp hmem with rfl | hmemx
    · rw [hf0]
    · by_cases hx : x = t0
      · subst hx
        rw [hf0]
      · rw [hnone x (List.mem_cons_self x xs) hx]
        exact ih hmemx hf0 (fun t ht => hnone t (List.mem_cons_of_mem x ht))

theorem intervalStep_cuspPairs (q : ℚ) (v : Fin 12 → ℚ) (t : Fin 12) :
    intervalStep q (cuspPairs v) t.val =
      if intervalTest q (v t) (v (t + 1)) = true then some (t.val + 1) else none := by
  have hlen : (cuspPairs v).length = 12 := rfl
  fin_cases t <;> simp only [intervalStep, hlen] <;> rfl

theorem scanIntervals_cuspPairs_unique (q : ℚ) (v : Fin 12 → ℚ) (i : Fin 12)
    (hpos : intervalTest q (v i) (v (i + 1)) = true)
    (hneg : ∀ t : Fin 12, t ≠ i → intervalTest q (v t) (v (t + 1)) = false) :
    scanIntervals q (cuspPairs v) = some (i.val + 1) := by
  rw [scanIntervals]
  have hlen : (cuspPairs v).length = 12 := rfl
  rw [hlen]
  apply findSome?_unique (List.mem_range.mpr i.isLt)
  · rw [intervalStep_cuspPairs q v i, if_pos hpos]
  · intro t ht hne
    have htlt : t < 12 := List.mem_range.mp ht
    have hcast : intervalStep q (cuspPairs v) t =
        intervalStep q (cuspPairs v) ((⟨t, htlt⟩ : Fin 12)).val := rfl
    rw [hcast, intervalStep_cuspPairs q v ⟨t, htlt⟩,
      if_neg (by rw [hneg ⟨t, htlt⟩ (fun h => hne (congrArg Fin.val h))]; simp)]

/-- Under valid (circularly strictly increasing) cusps, the interval of
house `t` contains the cusp of house `i` exactly when `t = i`. -/
theorem intervalTest_valid_iff (c : Fin 12 → ℚ) (r : Fin 12)
    (hmono : StrictMono (fun m : Fin 12 => c (r + m))) (i t : Fin 12) :
    intervalTest (c i) (c t) (c (t + 1)) = true ↔ t = i := by
  set mt := t - r with hmt
  set mi := i - r with hmi
  have hct : c t = c (r + mt) := by rw [hmt, add_sub_cancel]
  have hct1 : c (t + 1) = c (r + (mt + 1)) := by
    rw [hmt]
    congr 1
    ring
  have hci : c i = c (r + mi) := by rw [hmi, add_sub_cancel]
  have hiff : (t = i) ↔ (mt = mi) := by
    rw [hmt, hmi]
    exact (sub_left_inj).symm
  by_cases h11 : mt = 11
  · have ht1 : mt + 1 = 0 := by rw [h11]; decide
    have hlt : c (r + 0) < c (r + 11) := hmono (by decide : (0 : Fin 12) < 11)
    rw [hct, hct1, hci, ht1, h11]
    rw [intervalTest, if_pos hlt]
    rw [Bool.or_eq_true, decide_eq_true_eq, decide_eq_true_eq]
    constructor
    · rintro (hge | hlt2)
      · have h1 : (11 : Fin 12) ≤ mi := hmono.le_iff_le.mp hge
        have h2 : mi = 11 := le_antisymm (Fin.le_last mi) h1
        exact hiff.mpr (h11.trans h2.symm)
      · exact absurd (hmono.lt_iff_lt.mp hlt2) (Fin.not_lt_zero mi)
    · intro ht
      have h2 : mi = 11 := (hiff.mp ht) ▸ h11
      left
      rw [h2]
  · have hmtval : mt.val < 11 := by
      have h1 : mt.val < 12 := mt.isLt
      have h2 : mt.val ≠ 11 := fun hc => h11 (Fin.ext hc)
      omega
    have hval1 : (mt + 1).val = mt.val + 1 :=
      Fin.val_add_one_of_lt (by rw [Fin.lt_def]; simpa using hmtval)
    have hstep : c (r + mt) < c (r + (mt + 1)) :=
      hmono (by rw [Fin.lt_def, hval1]; omega)
    rw [hct, hct1, hci]
    rw [intervalTest, if_neg (not_lt.mpr (le_of_lt hstep))]
    rw [Bool.and_eq_true, decide_eq_true_eq, decide_eq_true_eq]
    constructor
    · rintro ⟨hle, hlt2⟩
      have h1 : mt ≤ mi := hmono.le_iff_le.mp hle
      have h2 : mi < mt + 1 := hmono.lt_iff_lt.mp hlt2
      rw [Fin.le_def] at h1
      rw [Fin.lt_def, hval1] at h2
      exact hiff.mpr (Fin.ext (by omega)).symm
    · intro ht
      have hmm : mt = mi := hiff.mp ht
      rw [← hmm]
      exact ⟨hmono.le_iff_le.mpr (le_refl mt),
        hmono.lt_iff_lt.mpr (by rw [Fin.lt_def, hval1]; omega)⟩

/-- Under valid cusps, the House Mapper sends the cusp of house `i`
exactly to house `i`. -/
theorem getPlanetHouse_cuspsOf_boundary (c : Fin 12 → ℚ) (hv : cuspsValid c)
    (i : Fin 12) : getPlanetHouse (c i) (cuspsOf c) = some (i.val + 1) := by
  obtain ⟨hrange, r, hmono⟩ := hv
  have hq : ∀ j : Fin 12, qmod (c j) 360 = c j :=
    fun j => qmod_eq_self (by norm_num) (hrange j).1 (hrange j).2
  have hL : houseCuspList (cuspsOf c) = cuspPairs c := by
    rw [houseCuspList_cuspsOf, cuspPairs]
    simp only [hq]
  have htest := intervalTest_valid_iff c r hmono i
  rw [getPlanetHouse]
  rw [if_neg (by simp [cuspsOf])]
  rw [hq i, hL]
  rw [if_neg (by rw [cuspPairs]; simp)]
  rw [scanIntervals_cuspPairs_unique (c i) c i ((htest i).mpr rfl)
    (fun t ht => by
      cases hb : intervalTest (c i) (c t) (c (t + 1)) with
      | false => rfl
      | true => exact absurd ((htest t).mp hb) ht)]

/-- **C3 counterexample** — the claim as stated quantifies over *every*
cusp dictionary containing all 12 houses, but on the degenerate
dictionary whose twelve cusps all equal 0° the point 0° — exactly equal
to `cusp(House5)` — is assigned house 1 (the closest-cusp fallback
picks the first house), not house 5. -/
theorem C3_counterexample :
    alookup (cuspsOf (fun _ => 0)) "House5" = some 0 ∧
    getPlanetHouse 0 (cuspsOf (fun _ => 0)) = some 1 ∧ (1 : ℕ) ≠ 5 := by
  decide

/-- **C3** (amended) — For every cusp dictionary containing all 12
houses and every longitude, the House Mapper returns exactly one house
index in 1..12; for every *valid* cusp dictionary (cusps in `[0, 360)`
and circularly strictly increasing, as Placidus cusps are), a point
exactly equal to `cusp(i)` is assigned to house `i`, not `i − 1`; and
in the wraparound configuration `House12 = 350°, House1 = 10°` a point
at 5° maps to house 12 and a point at 15° maps to house 1. -/
theorem C3_house_map_total_boundary_wrap :
    (∀ (c : Fin 12 → ℚ) (lon : ℚ),
      ∃ h, getPlanetHouse lon (cuspsOf c) = some h ∧ 1 ≤ h ∧ h ≤ 12) ∧
    (∀ (c : Fin 12 → ℚ), cuspsValid c → ∀ i : Fin 12,
      getPlanetHouse (c i) (cuspsOf c) = some (i.val + 1)) ∧
    (alookup (cuspsOf c3WrapFn) "House12" = some 350 ∧
     alookup (cuspsOf c3WrapFn) "House1" = some 10 ∧
     getPlanetHouse 5 (cuspsOf c3WrapFn) = some 12 ∧
     getPlanetHouse 15 (cuspsOf c3WrapFn) = some 1) :=
  ⟨getPlanetHouse_cuspsOf_total,
   fun c hv i => getPlanetHouse_cuspsOf_boundary c hv i,
   by decide, by decide, by decide, by decide⟩

/-- **C3 witness** — the boundary property applied to the concrete
valid wraparound cusp set: the point at `cusp(House4) = 100°` maps to
house 4. -/
theorem C3_witness :
    getPlanetHouse (c3WrapFn 3) (cuspsOf c3WrapFn) = some 4 :=
  C3_house_map_total_boundary_wrap.2.1 c3WrapFn
    ⟨by decide, 0, Fin.strictMono_iff_lt_succ.mpr (by decide)⟩ 3

end Astromind
